import Mathlib

/-!
# raft-sample: a shallow embedding of the write router, leader locator,
leadership transfer and membership start-up code

The consensus substrate (hashicorp/raft), the storage engine (badger), the
HTTP client and `encoding/json` are external collaborators.  They are
modelled as an environment of answers (`Env`): every call made by the
program is appended to a trace and is answered as a function of the number
of calls made so far, so successive queries may see different answers.
-/

namespace RaftSample

/-! ## Data model -/

/-- Byte strings (`[]byte`), kept as text since every payload is JSON text. -/
abbrev Bytes := String

/-- The node states of `raft.RaftState`. -/
inductive RaftState where
  | Follower
  | Candidate
  | Leader
  | Shutdown
  deriving DecidableEq, Repr

/-- The struct `utils.ConfigRaft`. -/
structure ConfigRaft where
  NodeId : String
  Address : String
  VolumeDir : String
  deriving DecidableEq, Repr

/-- The struct `utils.ConfigServer`; the two revisions of the file differ in
the boolean field (`ServerBootstrap` in `utils/config.go`, `IsServer` in
`src/utils/config.go`), both are kept. -/
structure ConfigServer where
  Address : String
  JoinAddress : String
  ServerBootstrap : Bool
  IsServer : Bool
  deriving DecidableEq, Repr

/-- The struct `utils.Config`; `Peers` exists in `src/utils/config.go` only. -/
structure Config where
  Server : ConfigServer
  Raft : ConfigRaft
  Peers : List String
  deriving DecidableEq, Repr

/-- The zero value of `Config` (`var data Config`). -/
def Config.zero : Config :=
  { Server := { Address := "", JoinAddress := "", ServerBootstrap := false, IsServer := false },
    Raft := { NodeId := "", Address := "", VolumeDir := "" },
    Peers := [] }

/-- A finite IEEE-754 double, the Go type `float64`, written as the dyadic
number `mantissa × 2 ^ exponent`; a whole number is kept with exponent 0. -/
structure Float64 where
  mantissa : Int
  exponent : Int
  deriving DecidableEq, Repr

/-- The number of binary digits of `a`, for at most `fuel` digits. -/
def bitLengthAux : Nat → Nat → Nat
  | 0, _ => 0
  | fuel + 1, a => if a = 0 then 0 else bitLengthAux fuel (a / 2) + 1

/-- The float64 nearest to a whole number, ties to even: the value a JSON
integer literal decodes to (magnitudes below 2 ^ 1024). -/
def Float64.ofInt (n : Int) : Float64 :=
  let a := n.natAbs
  if a < 2 ^ 53 then { mantissa := n, exponent := 0 }
  else
    let shift := bitLengthAux 1100 a - 53
    let q := a / 2 ^ shift
    let r := a % 2 ^ shift
    let half := 2 ^ (shift - 1)
    let q2 := if r > half ∨ (r = half ∧ q % 2 = 1) then q + 1 else q
    { mantissa := (if n < 0 then -1 else 1) * ((q2 * 2 ^ shift : Nat) : Int), exponent := 0 }

instance (n : Nat) : OfNat Float64 n := ⟨Float64.ofInt n⟩

/-- A decoded JSON document, as produced by decoding into `interface{}`:
every JSON number is a float64. -/
inductive Json where
  | null
  | bool (b : Bool)
  | num (f : Float64)
  | str (s : String)
  | arr (xs : List Json)
  | obj (kvs : List (String × Json))

/-- The dynamic values this program puts into an `interface{}`: a decoded
JSON document (request bodies, stored records) or a `Config` struct. -/
inductive GoValue where
  | json (j : Json)
  | config (c : Config)

/-- The struct `utils.RequestStore` (`requestStore` in the older handler). -/
structure RequestStore where
  Key : String
  Value : GoValue

/-- The struct `fsm.CommandPayload`. -/
structure CommandPayload where
  Operation : String
  Key : String
  Value : GoValue

/-- The struct `raft_handler.RequestJoin`. -/
structure RequestJoin where
  NodeID : String
  RaftAddress : String
  deriving DecidableEq, Repr

/-- The functions of `encoding/json` the program uses, one per static type. -/
structure JsonCodec where
  marshal : GoValue → Except String Bytes
  marshalCommand : CommandPayload → Except String Bytes
  marshalRequestStore : RequestStore → Except String Bytes
  marshalRequestJoin : RequestJoin → Except String Bytes
  unmarshal : Bytes → Except String Json
  unmarshalConfig : Bytes → Except String Config
  unmarshalCommand : Bytes → Except String CommandPayload
  unmarshalRequestStore : Bytes → Except String RequestStore

/-! ## Strings -/

/-- The predicate `unicode.IsSpace`. -/
def isSpace (c : Char) : Bool :=
  let n := c.toNat
  n == 0x09 || n == 0x0A || n == 0x0B || n == 0x0C || n == 0x0D || n == 0x20 ||
  n == 0x85 || n == 0xA0 || n == 0x1680 || (decide (0x2000 ≤ n) && decide (n ≤ 0x200A)) ||
  n == 0x2028 || n == 0x2029 || n == 0x202F || n == 0x205F || n == 0x3000

/-- The function `strings.TrimSpace`: leading and trailing white space removed. -/
def TrimSpace (s : String) : String :=
  String.mk (((s.data.dropWhile isSpace).reverse.dropWhile isSpace).reverse)

/-! ## The world: trace of calls and the durable store -/

/-- The outcome of an HTTP client call: a transport error, or a delivered
response with its status code. -/
inductive HttpResult where
  | connError (msg : String)
  | response (status : Nat)
  deriving DecidableEq, Repr

/-- The dynamic type of the value the FSM returned for an applied entry:
`*fsm.ApplyResponse` or anything else. -/
inductive FsmResponse where
  | applyResponse
  | other
  deriving DecidableEq, Repr

/-- The calls the program makes on its collaborators. -/
inductive Event where
  | State
  | Leader
  | GetConfiguration
  | Apply (data : Bytes) (timeoutMs : Nat)
  | LeadershipTransfer
  | BootstrapCluster (nodeId : String)
  | RegisterObserver
  | HttpPost (url : String) (contentType : String) (body : Bytes)
  | HttpGet (url : String)
  | DbGet (key : String)
  | DbOpen
  | DbClose
  | Sleep (ms : Nat)
  deriving DecidableEq, Repr

/-- The contents of the durable store (badger): key to stored bytes. -/
abbrev Store := String → Option Bytes

/-- The function `Store.put`: the store after writing `value` under `key`. -/
def Store.put (db : Store) (key : String) (value : Bytes) : Store :=
  fun k => if k = key then some value else db k

/-- Why the store yields no value for a key: `txn.Get` returned an error
(`Key not found` for an absent key, or any other failure such as a closed
store), or `item.Value` returned an error. -/
inductive ReadError where
  | get (msg : String)
  | value (msg : String)
  deriving DecidableEq, Repr

/-- The program-visible state: the durable store and the calls made so far.
`db key` is the value a read of `key` yields, `none` when the read yields no
value, in which case `readErr key` is the error badger reports. -/
structure World where
  db : Store
  trace : List Event
  readErr : String → ReadError := fun _ => ReadError.get "Key not found"

/-- The goroutines `SetupRaft` starts: the join loop and the leadership
listener. -/
inductive Goroutine where
  | join
  | listener
  deriving DecidableEq, Repr

/-- The answers of the collaborators.  The `Nat` argument is the number of
calls made before the one being answered.  `postBodyRead` tells, for a POST
that failed, whether its body had been read before the failure; `schedule`
tells which goroutine takes each step once `SetupRaft` has started them;
`dbClosedErr` is the error badger reports for a read of a closed store. -/
structure Env where
  codec : JsonCodec
  stateAt : Nat → RaftState
  leaderAt : Nat → String
  configurationErr : Nat → Option String
  applyErr : Nat → Bytes → Option String
  fsm : Bytes → Store → Store × FsmResponse
  transferErr : Nat → Option String
  httpPost : Nat → String → Bytes → HttpResult
  httpGet : Nat → String → HttpResult
  postBodyRead : Nat → Bool
  schedule : Nat → Goroutine
  dbClosedErr : String

/-- Record one call in the trace. -/
def World.emit (w : World) (e : Event) : World :=
  { w with trace := w.trace ++ [e] }

/-- The call `handler_raft.State()`. -/
def raftState (env : Env) (w : World) : RaftState × World :=
  (env.stateAt w.trace.length, w.emit Event.State)

/-- The call `h.raft.Leader()`. -/
def raftLeader (env : Env) (w : World) : String × World :=
  (env.leaderAt w.trace.length, w.emit Event.Leader)

/-- The call `h.raft.GetConfiguration()` followed by `configFuture.Error()`. -/
def raftGetConfiguration (env : Env) (w : World) : Option String × World :=
  (env.configurationErr w.trace.length, w.emit Event.GetConfiguration)

/-- The call `handler_raft.Apply(data, timeout)`: the future either carries an
error, or the entry was committed and handed to the FSM, whose return
value is the future's response. -/
def raftApply (env : Env) (data : Bytes) (timeoutMs : Nat) (w : World) :
    Except String FsmResponse × World :=
  let w1 := w.emit (Event.Apply data timeoutMs)
  match env.applyErr w.trace.length data with
  | some e => (Except.error e, w1)
  | none =>
    let r := env.fsm data w.db
    (Except.ok r.2, { w1 with db := r.1 })

/-- The call `handler_raft.LeadershipTransfer()`; the result is the value of
the future's `Error()`. -/
def raftLeadershipTransfer (env : Env) (w : World) : Option String × World :=
  (env.transferErr w.trace.length, w.emit Event.LeadershipTransfer)

/-- The call `http.Post(url, contentType, body)`. -/
def httpPost (env : Env) (url contentType : String) (body : Bytes) (w : World) :
    HttpResult × World :=
  (env.httpPost w.trace.length url body, w.emit (Event.HttpPost url contentType body))

/-- The call `http.Get(url)`. -/
def httpGet (env : Env) (url : String) (w : World) : HttpResult × World :=
  (env.httpGet w.trace.length url, w.emit (Event.HttpGet url))

/-! ## utils/data.go -/

/-- The function `actualGetData`, with its two error returns: `txn.Get` fails
(for the empty key badger answers `Key cannot be empty`, for any other key
the error the store reports), or `item.Value` fails; otherwise the stored
bytes of `key`. -/
def actualGetData (key : String) (w : World) : Except String Bytes × World :=
  let w1 := w.emit (Event.DbGet key)
  if key = "" then
    (Except.error ("error getting key " ++ key ++ " from storage: " ++ "Key cannot be empty"),
      w1)
  else
    match w.db key with
    | some value => (Except.ok value, w1)
    | none =>
      match w.readErr key with
      | ReadError.get msg =>
        (Except.error ("error getting key " ++ key ++ " from storage: " ++ msg), w1)
      | ReadError.value msg =>
        (Except.error
          ("error appending byte value of key " ++ key ++ " from storage: " ++ msg), w1)

/-- The function `GetData`. -/
def GetData (env : Env) (key : String) (w : World) : Except String Json × World :=
  match actualGetData key w with
  | (Except.error e, w1) =>
    (Except.error ("error unmarshal data to interface: " ++ e), w1)
  | (Except.ok value, w1) =>
    if value.length > 0 then
      match env.codec.unmarshal value with
      | Except.error e => (Except.error ("error unmarshal data to interface: " ++ e), w1)
      | Except.ok data => (Except.ok data, w1)
    else (Except.ok Json.null, w1)

/-- The function `GetNodeData`. -/
def GetNodeData (env : Env) (key : String) (w : World) : Except String Config × World :=
  match actualGetData key w with
  | (Except.error e, w1) =>
    (Except.error ("error unmarshal data to interface: " ++ e), w1)
  | (Except.ok value, w1) =>
    if value.length > 0 then
      match env.codec.unmarshalConfig value with
      | Except.error e => (Except.error ("error unmarshal data to interface: " ++ e), w1)
      | Except.ok data => (Except.ok data, w1)
    else (Except.ok Config.zero, w1)

/-- The bytes of `postBody, _ := json.Marshal(v)`: the error is dropped and
the byte slice is then nil. -/
def bytesOrNil (r : Except String Bytes) : Bytes :=
  match r with
  | Except.ok b => b
  | Except.error _ => ""

/-- The function `passToLeaderAndStore`; `none` is the nil error. -/
def passToLeaderAndStore (env : Env) (data : RequestStore) (w : World) :
    Option String × World :=
  let postBody := bytesOrNil (env.codec.marshalRequestStore data)
  match GetNodeData env "CurrentLeader" w with
  | (Except.error errLeader, w1) => (some errLeader, w1)
  | (Except.ok leader, w1) =>
    let url := "http://" ++ leader.Server.Address ++ "/store"
    match httpPost env url "application/json" postBody w1 with
    | (HttpResult.connError err, w2) => (some err, w2)
    | (HttpResult.response _, w2) => (none, w2)

/-- The function `storeOnLeadeer`. -/
def storeOnLeadeer (env : Env) (req : RequestStore) (w : World) : Option String × World :=
  let payload : CommandPayload := { Operation := "SET", Key := req.Key, Value := req.Value }
  match env.codec.marshalCommand payload with
  | Except.error err => (some ("error preparing saving data payload: " ++ err), w)
  | Except.ok data =>
    match raftApply env data 500 w with
    | (Except.error err, w1) => (some ("error persisting data in raft cluster: " ++ err), w1)
    | (Except.ok FsmResponse.other, w1) => (some "error response is not match apply response", w1)
    | (Except.ok FsmResponse.applyResponse, w1) => (none, w1)

/-- The function `StoreData`: on a node that is not leader the result of
`passToLeaderAndStore` is discarded. -/
def StoreData (env : Env) (data : RequestStore) (w : World) : Option String × World :=
  match raftState env w with
  | (RaftState.Leader, w1) =>
    match storeOnLeadeer env data w1 with
    | (some err, w2) => (some err, w2)
    | (none, w2) => (none, w2)
  | (_, w1) => (none, (passToLeaderAndStore env data w1).2)

/-! ## utils/leadership.go -/

/-- The function `passToLeaderAndTransferLeadership`. -/
def passToLeaderAndTransferLeadership (env : Env) (w : World) : Option String × World :=
  match GetNodeData env "CurrentLeader" w with
  | (Except.error errLeader, w1) => (some errLeader, w1)
  | (Except.ok leader, w1) =>
    let url := "http://" ++ leader.Server.Address ++ "/raft/pass_leadership"
    match httpGet env url w1 with
    | (HttpResult.connError err, w2) => (some err, w2)
    | (HttpResult.response _, w2) => (none, w2)

/-- The function `PassLeadership`. -/
def PassLeadership (env : Env) (w : World) : Option String × World :=
  match raftState env w with
  | (RaftState.Leader, w1) =>
    match raftLeadershipTransfer env w1 with
    | (some err, w2) => (some err, w2)
    | (none, w2) => (none, w2)
  | (_, w1) =>
    match passToLeaderAndTransferLeadership env w1 with
    | (some err, w2) => (some err, w2)
    | (none, w2) => (none, w2)

/-! ## HTTP handlers -/

/-- The JSON envelopes the handlers answer with. `errorValue` is the envelope
whose `error` member is an error value rather than a string. -/
inductive RespBody where
  | error (msg : String)
  | errorValue (err : String)
  | stored (message : String) (data : RequestStore)
  | fetched (message : String) (key : String) (value : Json)
  | message (msg : String)

/-- A handler's answer: status code and envelope. -/
structure HttpResponse where
  status : Nat
  body : RespBody

/-- The call `eCtx.Bind(&form)` on a JSON request body: an empty body leaves
the form at its zero value, any other body is decoded by `encoding/json`. -/
def Bind (env : Env) (body : Bytes) : Except String RequestStore :=
  if body = "" then Except.ok { Key := "", Value := GoValue.json Json.null }
  else env.codec.unmarshalRequestStore body

namespace store_handler

/-- The handler `Store` of `src/server/store_handler/handler_store.go`; `bind`
is the outcome of `eCtx.Bind(&form)`. -/
def Store (env : Env) (bind : Except String RequestStore) (w : World) : HttpResponse × World :=
  match bind with
  | Except.error err => ({ status := 422, body := RespBody.error ("error binding: " ++ err) }, w)
  | Except.ok form0 =>
    let form : RequestStore := { form0 with Key := TrimSpace form0.Key }
    if form.Key = "" then
      ({ status := 422, body := RespBody.error "key is empty" }, w)
    else
      match raftGetConfiguration env w with
      | (some err, w1) =>
        ({ status := 422,
           body := RespBody.error ("failed to get raft configuration: " ++ err) }, w1)
      | (none, w1) =>
        match StoreData env form w1 with
        | (some err, w2) => ({ status := 422, body := RespBody.errorValue err }, w2)
        | (none, w2) =>
          ({ status := 200, body := RespBody.stored "success persisting data" form }, w2)

/-- The handler `Get` of `server/store_handler/handler_get.go`; `param` is
`eCtx.Param("key")`. -/
def Get (env : Env) (param : String) (w : World) : HttpResponse × World :=
  let key := TrimSpace param
  if key = "" then
    ({ status := 422, body := RespBody.error "key is empty" }, w)
  else
    match GetData env key w with
    | (Except.error err, w1) => ({ status := 422, body := RespBody.errorValue err }, w1)
    | (Except.ok data, w1) =>
      ({ status := 200, body := RespBody.fetched "success fetching data" key data }, w1)

end store_handler

namespace store_handler_inline

/-- The handler `Store` of `server/store_handler/handler_store.go`, the
revision that forwards and applies inline instead of calling `StoreData`. -/
def Store (env : Env) (bind : Except String RequestStore) (w : World) : HttpResponse × World :=
  match bind with
  | Except.error err => ({ status := 422, body := RespBody.error ("error binding: " ++ err) }, w)
  | Except.ok form0 =>
    let form : RequestStore := { form0 with Key := TrimSpace form0.Key }
    if form.Key = "" then
      ({ status := 422, body := RespBody.error "key is empty" }, w)
    else
      match raftState env w with
      | (RaftState.Leader, w1) =>
        match raftGetConfiguration env w1 with
        | (some err, w2) =>
          ({ status := 422,
             body := RespBody.error ("failed to get raft configuration: " ++ err) }, w2)
        | (none, w2) =>
          let payload : CommandPayload :=
            { Operation := "SET", Key := form.Key, Value := form.Value }
          match env.codec.marshalCommand payload with
          | Except.error err =>
            ({ status := 422,
               body := RespBody.error ("error preparing saving data payload: " ++ err) }, w2)
          | Except.ok data =>
            match raftApply env data 500 w2 with
            | (Except.error err, w3) =>
              ({ status := 422,
                 body := RespBody.error ("error persisting data in raft cluster: " ++ err) }, w3)
            | (Except.ok FsmResponse.other, w3) =>
              ({ status := 422,
                 body := RespBody.error "error response is not match apply response" }, w3)
            | (Except.ok FsmResponse.applyResponse, w3) =>
              ({ status := 200, body := RespBody.stored "success persisting data" form }, w3)
      | (_, w1) =>
        let postBody := bytesOrNil (env.codec.marshalRequestStore form)
        match raftLeader env w1 with
        | (leader, w2) =>
          let url := "http://" ++ leader ++ "/store"
          match httpPost env url "application/json" postBody w2 with
          | (HttpResult.connError err, w3) =>
            ({ status := 422, body := RespBody.errorValue err }, w3)
          | (HttpResult.response _, w3) =>
            ({ status := 200, body := RespBody.stored "success persisting data" form }, w3)

end store_handler_inline

namespace raft_handler

/-- The handler `PassLeadership` of `server/raft_handler/handler_leadership.go`. -/
def PassLeadership (env : Env) (w : World) : HttpResponse × World :=
  match RaftSample.PassLeadership env w with
  | (some err, w1) => ({ status := 422, body := RespBody.errorValue err }, w1)
  | (none, w1) => ({ status := 200, body := RespBody.message "success transferring leader" }, w1)

end raft_handler


/-! ## The state machine -/

/-- Modelled from the spec: the FSM (package `fsm`) is not among the sources.
Section 4.1: the entry is decoded into a Command, a decode failure fails the
Apply; for operation SET the pair key, value is written into the durable
store, overwriting any prior value, and an ApplyResult is returned; a store
write failure fails the Apply.  The stored bytes are the JSON encoding of the
value, which is what `GetData` decodes. -/
def fsmApply (codec : JsonCodec) (entry : Bytes) (db : Store) : Store × FsmResponse :=
  match codec.unmarshalCommand entry with
  | Except.error _ => (db, FsmResponse.other)
  | Except.ok cmd =>
    if cmd.Operation = "SET" then
      match codec.marshal cmd.Value with
      | Except.error _ => (db, FsmResponse.other)
      | Except.ok value => (db.put cmd.Key value, FsmResponse.applyResponse)
    else (db, FsmResponse.other)

/-! ## Trace observations -/

/-- The new calls made between world `w` and a later world `w2`. -/
def newEvents (w w2 : World) : List Event :=
  w2.trace.drop w.trace.length

/-- Is the call a `State()` query? -/
def Event.isState : Event → Bool
  | Event.State => true
  | _ => false

/-- Is the call an `Apply`? -/
def Event.isApply : Event → Bool
  | Event.Apply _ _ => true
  | _ => false

/-- Is the call an HTTP POST? -/
def Event.isHttpPost : Event → Bool
  | Event.HttpPost _ _ _ => true
  | _ => false

/-- Is the call an HTTP request of any method? -/
def Event.isHttp : Event → Bool
  | Event.HttpPost _ _ _ => true
  | Event.HttpGet _ => true
  | _ => false

/-- Is the call a `LeadershipTransfer`? -/
def Event.isLeadershipTransfer : Event → Bool
  | Event.LeadershipTransfer => true
  | _ => false

/-! ## The leadership-change listener -/

/-- The request the listener stores: key `CurrentLeader`, value the node's own
configuration. -/
def currentLeaderRequest (conf : Config) : RequestStore :=
  { Key := "CurrentLeader", Value := GoValue.config conf }

namespace server

/-- One iteration of the `for range leaderCh` loop of `WatchLeaderChanges`
(`src/server/server.go`), run for one notification.  `Except.error` is
`log.Fatal`, which ends the process. -/
def onLeaderChange (env : Env) (conf : Config) (w : World) : Except String Unit × World :=
  match raftState env w with
  | (RaftState.Leader, w1) =>
    match StoreData env (currentLeaderRequest conf) w1 with
    | (some err, w2) => (Except.error err, w2)
    | (none, w2) =>
      match GetNodeData env "CurrentLeader" w2 with
      | (Except.error errLeader, w3) => (Except.error errLeader, w3)
      | (Except.ok _, w3) => (Except.ok (), w3)
  | (_, w1) => (Except.ok (), w1)

end server

namespace main

/-- One iteration of the `for range leaderCh` loop of `main` (`main.go`), run
for one notification. -/
def onLeaderChange (env : Env) (conf : Config) (w : World) : World :=
  match raftState env w with
  | (RaftState.Leader, w1) => (StoreData env (currentLeaderRequest conf) w1).2
  | (_, w1) => w1

end main

/-! ## Membership at start-up -/

/-- How a join-retry loop stands: it has left its loop, the process was ended
by `log.Fatal`, or the loop is still retrying when the observation ends. -/
inductive JoinResult where
  | joined
  | fatal (msg : String)
  | retrying
  deriving DecidableEq, Repr

/-- The call `raftServer.BootstrapCluster(configuration)` with the node itself
as the only server. -/
def BootstrapCluster (conf : Config) (w : World) : World :=
  w.emit (Event.BootstrapCluster conf.Raft.NodeId)

/-- The JSON body of a join request, `json.Marshal(form)` with the error
dropped. -/
def joinBody (env : Env) (conf : Config) : Bytes :=
  bytesOrNil (env.codec.marshalRequestJoin
    { NodeID := conf.Raft.NodeId, RaftAddress := conf.Raft.Address })

namespace server

/-- The function `BootStrapServer` of `src/server/server.go`. -/
def BootStrapServer (conf : Config) (w : World) : World :=
  BootstrapCluster conf w

/-- The `for _, peer := range conf.Peers` loop of `RetryJoin`.  `buf` is what
is left to read in the one `bytes.Buffer` handed to every `http.Post`: a
delivered request has read it to the end; a request that failed has read it
or not, as the environment tells. -/
def RetryJoinPeers (env : Env) : List String → Bytes → World → Option String × World
  | [], _, w => (some "an error", w)
  | peer :: rest, buf, w =>
    match httpPost env (peer ++ "/raft/join") "application/json" buf w with
    | (HttpResult.connError _, w1) =>
      RetryJoinPeers env rest (if env.postBodyRead w.trace.length then "" else buf) w1
    | (HttpResult.response status, w1) =>
      if status = 200 then (none, w1) else RetryJoinPeers env rest "" w1

/-- The function `RetryJoin` of `src/server/server.go`. -/
def RetryJoin (env : Env) (conf : Config) (w : World) : Option String × World :=
  RetryJoinPeers env conf.Peers (joinBody env conf) w

/-- The function `setupBadgerDB` of `src/server/raft.go`: the store is opened
and, by the deferred `Close`, closed again before the function returns, so
the handle it returns yields no value for any key. -/
def setupBadgerDB (env : Env) (w : World) : World :=
  { (w.emit Event.DbOpen).emit Event.DbClose with
    db := fun _ => none
    readErr := fun _ => ReadError.get env.dbClosedErr }

/-- The registration part of `WatchLeaderChanges`; the notifications that
follow are handled by the listener goroutine. -/
def WatchLeaderChanges (w : World) : World :=
  w.emit Event.RegisterObserver

/-- Where the join goroutine of `SetupRaft` stands: not started, about to call
`RetryJoin` and assign its result to `err`, about to test `err`, or out of
its loop. -/
inductive JoinPc where
  | notStarted
  | pass
  | test
  | done
  deriving DecidableEq, Repr

/-- Where the listener goroutine of `WatchLeaderChanges` stands: waiting for a
notification, or having assigned the result of `StoreData` to `err` and about
to test it. -/
inductive ListenPc where
  | idle
  | check
  deriving DecidableEq, Repr

/-- The process once `SetupRaft` has started its goroutines.  `err` is the
package-level `var err error` of `src/server/raft.go`, which both goroutines
assign and test; `exited` holds the message of a `log.Fatal`. -/
structure Proc where
  world : World
  err : Option String
  join : JoinPc
  listener : ListenPc
  exited : Option String

/-- One step of the join goroutine, `for { err = RetryJoin(conf); if err == nil
{ break }; time.Sleep(2 * time.Second) }`: the call with its assignment, or
the test with the pause that follows a failure. -/
def stepJoin (env : Env) (conf : Config) (p : Proc) : Proc :=
  match p.join with
  | JoinPc.pass =>
    { p with
      world := (RetryJoin env conf p.world).2
      err := (RetryJoin env conf p.world).1
      join := JoinPc.test }
  | JoinPc.test =>
    match p.err with
    | none => { p with join := JoinPc.done }
    | some _ => { p with world := p.world.emit (Event.Sleep 2000), join := JoinPc.pass }
  | JoinPc.notStarted => p
  | JoinPc.done => p

/-- One step of the listener goroutine of `WatchLeaderChanges`: a notification
is received and, on a leader, `err = utils.StoreData(...)` is run; or `err` is
tested, with `log.Fatal` when it is not nil, and `CurrentLeader` read back,
with `log.Fatal` when that fails. -/
def stepListener (env : Env) (conf : Config) (p : Proc) : Proc :=
  match p.listener with
  | ListenPc.idle =>
    match raftState env p.world with
    | (RaftState.Leader, w1) =>
      { p with
        world := (StoreData env (currentLeaderRequest conf) w1).2
        err := (StoreData env (currentLeaderRequest conf) w1).1
        listener := ListenPc.check }
    | (_, w1) => { p with world := w1 }
  | ListenPc.check =>
    match p.err with
    | some msg => { p with exited := some msg }
    | none =>
      match GetNodeData env "CurrentLeader" p.world with
      | (Except.error errLeader, w1) => { p with world := w1, exited := some errLeader }
      | (Except.ok _, w1) => { p with world := w1, listener := ListenPc.idle }

/-- One step of the process: the scheduled goroutine steps, unless the process
has exited. -/
def step (env : Env) (conf : Config) (g : Goroutine) (p : Proc) : Proc :=
  match p.exited with
  | some _ => p
  | none =>
    match g with
    | Goroutine.join => stepJoin env conf p
    | Goroutine.listener => stepListener env conf p

/-- The process run along a schedule. -/
def run (env : Env) (conf : Config) : List Goroutine → Proc → Proc
  | [], p => p
  | g :: gs, p => run env conf gs (step env conf g p)

/-- The schedule of `passes` passes of the join goroutine, each with its test,
no other goroutine stepping in between. -/
def joinAlone : Nat → List Goroutine
  | 0 => []
  | passes + 1 => Goroutine.join :: Goroutine.join :: joinAlone passes

/-- The standing of the join loop in a process: `none` when it was not
started. -/
def Proc.joinResult (p : Proc) : Option JoinResult :=
  match p.join with
  | JoinPc.notStarted => none
  | JoinPc.done => some JoinResult.joined
  | _ =>
    match p.exited with
    | some msg => some (JoinResult.fatal msg)
    | none => some JoinResult.retrying

/-- The process at the point where `SetupRaft` starts the join goroutine,
which it does when the list of peers is not empty; `err` is still nil. -/
def started (conf : Config) (w : World) : Proc :=
  { world := w, err := none,
    join := if conf.Peers.length > 0 then JoinPc.pass else JoinPc.notStarted,
    listener := ListenPc.idle, exited := none }

/-- The function `SetupRaft` of `src/server/raft.go`, with the goroutines it
starts observed for `fuel` steps.  The join goroutine, when started, takes the
first observed step, its first pass, as soon as it is started; the following
steps are taken by the goroutine the environment schedules.  The result is the
standing of the join loop, `none` when it was not started. -/
def SetupRaft (env : Env) (conf : Config) (fuel : Nat) (w : World) :
    Option JoinResult × World :=
  let p0 : Proc := started conf (BootStrapServer conf (setupBadgerDB env w))
  let p1 : Proc :=
    match fuel with
    | 0 => p0
    | _ + 1 => stepJoin env conf p0
  let data : RequestStore :=
    { Key := "member_" ++ conf.Raft.NodeId, Value := GoValue.config conf }
  let p2 : Proc := { p1 with world := WatchLeaderChanges (StoreData env data p1.world).2 }
  let p3 := run env conf ((List.range (fuel - 1)).map env.schedule) p2
  (p3.joinResult, p3.world)

end server

namespace main

/-- The function `retryJoin` of `main.go` and `cmd/api/main.go`: one POST to
the join address; `Except.error` is `log.Fatal`. -/
def retryJoin (env : Env) (conf : Config) (w : World) : Except String Nat × World :=
  match httpPost env (conf.Server.JoinAddress ++ "/raft/join") "application/json"
      (joinBody env conf) w with
  | (HttpResult.connError err, w1) => (Except.error err, w1)
  | (HttpResult.response status, w1) => (Except.ok status, w1)

/-- The loop `for { statusCode := retryJoin(conf); time.Sleep(4s); if statusCode
== 200 { break } }` of `main`, observed for at most `fuel` passes. -/
def joinLoop (env : Env) (conf : Config) : Nat → World → JoinResult × World
  | 0, w => (JoinResult.retrying, w)
  | fuel + 1, w =>
    match retryJoin env conf w with
    | (Except.error err, w1) => (JoinResult.fatal err, w1)
    | (Except.ok status, w1) =>
      if status = 200 then (JoinResult.joined, w1.emit (Event.Sleep 4000))
      else joinLoop env conf fuel (w1.emit (Event.Sleep 4000))

/-- The membership part of `main` in `main.go` (the bootstrap `if` and the join
`if`).  The result is the standing of the join loop, `none` when it was not
started. -/
def startMembership (env : Env) (conf : Config) (fuel : Nat) (w : World) :
    Option JoinResult × World :=
  let w1 := if conf.Server.ServerBootstrap then BootstrapCluster conf w else w
  if conf.Server.JoinAddress.length > 0 then
    (some (joinLoop env conf fuel w1).1, (joinLoop env conf fuel w1).2)
  else (none, w1)

end main

namespace cmd_api

/-- The membership part of `main` in `cmd/api/main.go`: the join loop when a
join address is set, else the bootstrap. -/
def startMembership (env : Env) (conf : Config) (fuel : Nat) (w : World) :
    Option JoinResult × World :=
  if conf.Server.JoinAddress.length > 0 then
    (some (main.joinLoop env conf fuel w).1, (main.joinLoop env conf fuel w).2)
  else (none, BootstrapCluster conf w)

end cmd_api

/-- Is the call a `BootstrapCluster`? -/
def Event.isBootstrap : Event → Bool
  | Event.BootstrapCluster _ => true
  | _ => false

/-- Is the call a join request: a POST whose URL ends in `/raft/join`? -/
def Event.isJoinPost : Event → Bool
  | Event.HttpPost url _ _ => "/raft/join".data.isSuffixOf url.data
  | _ => false

/-- Is the call a pause of the join loop? -/
def Event.isSleep : Event → Bool
  | Event.Sleep _ => true
  | _ => false

/-! ## Answers observed on a trace -/

/-- The answers the collaborators gave to the HTTP requests among `evs`, the
first of which was call number `t`; `none` stands for a call that is not an
HTTP request. -/
def answers (env : Env) : Nat → List Event → List (Option HttpResult)
  | _, [] => []
  | t, e :: es =>
    (match e with
     | Event.HttpPost url _ body => some (env.httpPost t url body)
     | Event.HttpGet url => some (env.httpGet t url)
     | _ => none) :: answers env (t + 1) es

/-- The URL of a POST. -/
def Event.postUrl : Event → Option String
  | Event.HttpPost url _ _ => some url
  | _ => none

/-- The body of a POST. -/
def Event.postBody : Event → Option Bytes
  | Event.HttpPost _ _ body => some body
  | _ => none

/-! ## src/utils/utils.go -/

/-- The class `\w` of the regular expression: ASCII letters, digits and `_`. -/
def isWordChar (c : Char) : Bool :=
  c.isAlphanum || c == '_'

/-- The class `[\w\-\_\.]` of the regular expression. -/
def isHostChar (c : Char) : Bool :=
  isWordChar c || c == '-' || c == '_' || c == '.'

/-- The class `\d` of the regular expression: ASCII decimal digits. -/
def isDigitChar (c : Char) : Bool :=
  c.isDigit

/-- A match of `^([\w\-\_\.]+?)\:(\d+)$` on one line: the two groups.  The
anchors make a match cover the whole line, and the first class excludes the
colon, so group 1 is the run of class characters the line starts with. -/
def matchHostPort (line : List Char) : Option (List Char × List Char) :=
  match line.dropWhile isHostChar with
  | ':' :: port =>
    if line.takeWhile isHostChar ≠ [] ∧ port ≠ [] ∧ port.all isDigitChar = true then
      some (line.takeWhile isHostChar, port)
    else none
  | _ => none

/-- The lines of a text, split at every newline. -/
def splitLines : List Char → List (List Char)
  | [] => [[]]
  | c :: cs =>
    if c = '\n' then [] :: splitLines cs
    else
      match splitLines cs with
      | [] => [[c]]
      | l :: ls => (c :: l) :: ls

/-- The call `re.ReplaceAllString(address, template)` for the expression of
`SplitAddress`, in multi-line mode: every line that matches is replaced by the
group the template names, every other line is kept. -/
def ReplaceAllString (group : List Char × List Char → List Char) (address : String) : String :=
  String.mk (List.intercalate ['\n']
    ((splitLines address.data).map (fun line =>
      match matchHostPort line with
      | some g => group g
      | none => line)))

/-- The function `SplitAddress`: the templates are `$1` and `$2`. -/
def SplitAddress (address : String) : String × String :=
  (ReplaceAllString (fun g => g.1) address, ReplaceAllString (fun g => g.2) address)

/-! ## Sample collaborators, used to evaluate the program on concrete inputs -/

/-- A node configuration: node `n1`, HTTP on `n1:2221`, raft on `n1:1111`. -/
def sampleConfig : Config :=
  { Server := { Address := "n1:2221", JoinAddress := "", ServerBootstrap := true,
                IsServer := true },
    Raft := { NodeId := "n1", Address := "n1:1111", VolumeDir := "/data" },
    Peers := [] }

/-- A node configured with both a bootstrap flag and join targets. -/
def sampleJoinConfig : Config :=
  { Server := { Address := "n2:2222", JoinAddress := "http://n1:2221", ServerBootstrap := true,
                IsServer := true },
    Raft := { NodeId := "n2", Address := "n2:1112", VolumeDir := "/data" },
    Peers := ["http://n1:2221"] }

/-- A node configured with two peers to join through. -/
def sampleTwoPeerConfig : Config :=
  { Server := { Address := "n2:2222", JoinAddress := "", ServerBootstrap := false,
                IsServer := true },
    Raft := { NodeId := "n2", Address := "n2:1112", VolumeDir := "/data" },
    Peers := ["http://n1:2221", "http://n3:2223"] }

/-- A node configured with neither a bootstrap flag nor a join target. -/
def sampleIdleConfig : Config :=
  { Server := { Address := "n3:2223", JoinAddress := "", ServerBootstrap := false,
                IsServer := true },
    Raft := { NodeId := "n3", Address := "n3:1113", VolumeDir := "/data" },
    Peers := [] }

/-- The decimal text of a whole number. -/
def intText (n : Int) : String :=
  if n < 0 then "-" ++ String.mk (Nat.toDigits 10 n.natAbs)
  else String.mk (Nat.toDigits 10 n.natAbs)

/-- The number a non-empty run of decimal digits without a leading zero
denotes. -/
def parseNat (cs : List Char) : Option Nat :=
  if cs ≠ [] ∧ cs.all Char.isDigit = true ∧ (cs.head? ≠ some '0' ∨ cs.length = 1) then
    some (cs.foldl (fun a c => 10 * a + (c.toNat - 48)) 0)
  else none

/-- The whole number a JSON integer literal denotes. -/
def parseInt (cs : List Char) : Option Int :=
  match cs with
  | '-' :: rest => (parseNat rest).map (fun n => - (n : Int))
  | _ => (parseNat cs).map (fun n => (n : Int))

/-- What is left of `s` after its leading `pre`. -/
def dropLeading (pre s : List Char) : Option (List Char) :=
  if pre.isPrefixOf s then some (s.drop pre.length) else none

/-- What is left of `s` before its trailing `suf`. -/
def dropTrailing (suf s : List Char) : Option (List Char) :=
  if suf.isSuffixOf s then some (s.take (s.length - suf.length)) else none

/-- A string that needs no escape, between double quotes. -/
def quoted (s : String) : String :=
  "\"" ++ s ++ "\""

/-- The JSON text of a boolean. -/
def boolText (b : Bool) : String :=
  if b then "true" else "false"

/-- The sample encoding of a decoded document: `null`, booleans and whole
numbers below 10 ^ 21 in magnitude, which Go writes without an exponent. -/
def sampleMarshalJson (j : Json) : Except String Bytes :=
  match j with
  | Json.null => Except.ok "null"
  | Json.bool b => Except.ok (boolText b)
  | Json.num f =>
    if f.exponent = 0 ∧ f.mantissa.natAbs < 10 ^ 21 then Except.ok (intText f.mantissa)
    else Except.error "json: unsupported value"
  | _ => Except.error "json: unsupported value"

/-- The sample encoding of a `Config`: every field, in declaration order, under
its Go name. -/
def sampleMarshalConfig (c : Config) : Bytes :=
  "\x7b\"Server\":\x7b\"Address\":" ++ quoted c.Server.Address
    ++ ",\"JoinAddress\":" ++ quoted c.Server.JoinAddress
    ++ ",\"ServerBootstrap\":" ++ boolText c.Server.ServerBootstrap
    ++ ",\"IsServer\":" ++ boolText c.Server.IsServer
    ++ "\x7d,\"Raft\":\x7b\"NodeId\":" ++ quoted c.Raft.NodeId
    ++ ",\"Address\":" ++ quoted c.Raft.Address
    ++ ",\"VolumeDir\":" ++ quoted c.Raft.VolumeDir
    ++ "\x7d,\"Peers\":[" ++ String.intercalate "," (c.Peers.map quoted) ++ "]\x7d"

/-- The sample encoding of a value held in an `interface{}`. -/
def sampleMarshal (v : GoValue) : Except String Bytes :=
  match v with
  | GoValue.json j => sampleMarshalJson j
  | GoValue.config c => Except.ok (sampleMarshalConfig c)

/-- The sample decoding into an `interface{}`: `null`, booleans and integer
literals, the latter rounded to float64. -/
def sampleUnmarshal (b : Bytes) : Except String Json :=
  if b = "null" then Except.ok Json.null
  else if b = "true" then Except.ok (Json.bool true)
  else if b = "false" then Except.ok (Json.bool false)
  else
    match parseInt b.data with
    | some n => Except.ok (Json.num (Float64.ofInt n))
    | none => Except.error "invalid character"

/-- The sample decoding of an object with a string member followed by a value
member, `pre` key `mid` value `post`, the key needing no escape. -/
def sampleUnmarshalPair (pre mid post : String) (b : Bytes) : Except String (String × Json) :=
  match dropLeading pre.data b.data with
  | none => Except.error "invalid character"
  | some rest =>
    match dropLeading mid.data (rest.dropWhile (fun c => c != '"')) with
    | none => Except.error "invalid character"
    | some rest2 =>
      match dropTrailing post.data rest2 with
      | none => Except.error "unexpected end of JSON input"
      | some valueText =>
        match sampleUnmarshal (String.mk valueText) with
        | Except.error e => Except.error e
        | Except.ok j => Except.ok (String.mk (rest.takeWhile (fun c => c != '"')), j)

/-- A string between double quotes that needs no escape, with what follows
it. -/
def readQuoted (s : List Char) : Option (String × List Char) :=
  match s with
  | '"' :: rest =>
    match rest.dropWhile (fun c => c != '"') with
    | '"' :: rest2 => some (String.mk (rest.takeWhile (fun c => c != '"')), rest2)
    | _ => none
  | _ => none

/-- A JSON boolean, with what follows it. -/
def readBool (s : List Char) : Option (Bool × List Char) :=
  match dropLeading "true".data s with
  | some rest => some (true, rest)
  | none =>
    match dropLeading "false".data s with
    | some rest => some (false, rest)
    | none => none

/-- The items of a non-empty JSON array of plain strings after its opening
bracket, with what follows the closing bracket. -/
def readQuotedItems : Nat → List Char → Option (List String × List Char)
  | 0, _ => none
  | fuel + 1, s =>
    match readQuoted s with
    | none => none
    | some (x, rest) =>
      match rest with
      | ',' :: rest2 => (readQuotedItems fuel rest2).map (fun r => (x :: r.1, r.2))
      | ']' :: rest2 => some ([x], rest2)
      | _ => none

/-- A JSON array of plain strings or `null`, which Go decodes to a slice
without elements, with what follows it. -/
def readPeers (s : List Char) : Option (List String × List Char) :=
  match dropLeading "null".data s with
  | some rest => some ([], rest)
  | none =>
    match s with
    | '[' :: ']' :: rest => some ([], rest)
    | '[' :: rest => readQuotedItems rest.length rest
    | _ => none

/-- The sample decoding of a `Config`: the document `sampleMarshalConfig`
writes, read field by field. -/
def sampleUnmarshalConfig (b : Bytes) : Except String Config :=
  let r : Option Config := do
    let s0 ← dropLeading "\x7b\"Server\":\x7b\"Address\":".data b.data
    let a ← readQuoted s0
    let s1 ← dropLeading ",\"JoinAddress\":".data a.2
    let j ← readQuoted s1
    let s2 ← dropLeading ",\"ServerBootstrap\":".data j.2
    let sb ← readBool s2
    let s3 ← dropLeading ",\"IsServer\":".data sb.2
    let isv ← readBool s3
    let s4 ← dropLeading "\x7d,\"Raft\":\x7b\"NodeId\":".data isv.2
    let n ← readQuoted s4
    let s5 ← dropLeading ",\"Address\":".data n.2
    let ra ← readQuoted s5
    let s6 ← dropLeading ",\"VolumeDir\":".data ra.2
    let v ← readQuoted s6
    let s7 ← dropLeading "\x7d,\"Peers\":".data v.2
    let ps ← readPeers s7
    if ps.2 = ['\x7d'] then
      some { Server := { Address := a.1, JoinAddress := j.1, ServerBootstrap := sb.1,
                         IsServer := isv.1 },
             Raft := { NodeId := n.1, Address := ra.1, VolumeDir := v.1 },
             Peers := ps.1 }
    else none
  match r with
  | some c => Except.ok c
  | none => Except.error "invalid character"

/-- A codec for the samples: it writes what `encoding/json` writes for whole
numbers, `null`, booleans, plain strings and the structs of this program,
and reads those documents back. -/
def sampleCodec : JsonCodec :=
  { marshal := sampleMarshal
    marshalCommand := fun c =>
      match sampleMarshal c.Value with
      | Except.error e => Except.error e
      | Except.ok v =>
        Except.ok ("\x7b\"Operation\":" ++ quoted c.Operation ++ ",\"Key\":" ++ quoted c.Key
          ++ ",\"Value\":" ++ v ++ "\x7d")
    marshalRequestStore := fun r =>
      match sampleMarshal r.Value with
      | Except.error e => Except.error e
      | Except.ok v => Except.ok ("\x7b\"key\":" ++ quoted r.Key ++ ",\"value\":" ++ v ++ "\x7d")
    marshalRequestJoin := fun r =>
      Except.ok ("\x7b\"nodeId\":" ++ quoted r.NodeID ++ ",\"raftAddress\":"
        ++ quoted r.RaftAddress ++ "\x7d")
    unmarshal := sampleUnmarshal
    unmarshalConfig := sampleUnmarshalConfig
    unmarshalCommand := fun b =>
      match sampleUnmarshalPair "\x7b\"Operation\":\"SET\",\"Key\":\"" "\",\"Value\":" "\x7d" b with
      | Except.error e => Except.error e
      | Except.ok kv =>
        Except.ok { Operation := "SET", Key := kv.1, Value := GoValue.json kv.2 }
    unmarshalRequestStore := fun b =>
      match sampleUnmarshalPair "\x7b\"key\":\"" "\",\"value\":" "\x7d" b with
      | Except.error e => Except.error e
      | Except.ok kv => Except.ok { Key := kv.1, Value := GoValue.json kv.2 } }

/-- Collaborators of a node that always reports state `st`, whose substrate
calls succeed, whose FSM acknowledges without writing, and whose HTTP
requests are answered with status `status`. -/
def sampleEnv (st : RaftState) (status : Nat) : Env :=
  { codec := sampleCodec
    stateAt := fun _ => st
    leaderAt := fun _ => "n1:2221"
    configurationErr := fun _ => none
    applyErr := fun _ _ => none
    fsm := fun _ db => (db, FsmResponse.applyResponse)
    transferErr := fun _ => none
    httpPost := fun _ _ _ => HttpResult.response status
    httpGet := fun _ _ => HttpResult.response status
    postBodyRead := fun _ => false
    schedule := fun _ => Goroutine.join
    dbClosedErr := "DB Closed" }

/-- The collaborators of `sampleEnv` with the state machine of this repository
registered in the substrate. -/
def sampleEnvFsm (st : RaftState) (status : Nat) : Env :=
  { sampleEnv st status with fsm := fsmApply sampleCodec }

/-- Collaborators of a node that always reports state `st` and whose HTTP
requests cannot be delivered. -/
def sampleEnvDown (st : RaftState) : Env :=
  { sampleEnv st 200 with
    httpPost := fun _ _ _ => HttpResult.connError "connection refused"
    httpGet := fun _ _ => HttpResult.connError "connection refused" }

/-- The collaborators of `sampleEnv` with every step after the first given to
the leadership listener. -/
def sampleEnvListening (st : RaftState) (status : Nat) : Env :=
  { sampleEnv st status with schedule := fun _ => Goroutine.listener }

/-- A fresh node: empty store, no call made yet. -/
def emptyWorld : World :=
  { db := fun _ => none, trace := [] }

/-- A node whose store has been closed: no read yields a value, and badger
reports `DB Closed`. -/
def worldClosed : World :=
  { db := fun _ => none, trace := [], readErr := fun _ => ReadError.get "DB Closed" }

/-- A node whose store holds the `CurrentLeader` record of `sampleConfig`. -/
def worldWithLeader : World :=
  { db := fun k => if k = "CurrentLeader" then some (sampleMarshalConfig sampleConfig)
                   else none,
    trace := [] }

/-- The request `{key: "x", value: 1}`. -/
def sampleRequest : RequestStore :=
  { Key := "x", Value := GoValue.json (Json.num 1) }

/-! ## Theorems -/

set_option maxRecDepth 100000

/-- A string made of white space only trims to the empty string. -/
theorem TrimSpace_of_all_space (s : String) (h : ∀ c ∈ s.data, isSpace c = true) :
    TrimSpace s = "" := by
  have h1 : s.data.dropWhile isSpace = [] := by
    rw [List.dropWhile_eq_nil_iff]
    exact h
  simp [TrimSpace, h1]

/-- C1: a Store request whose key is empty or only white space is answered with
HTTP 422 and error "key is empty" by both revisions of the handler, whatever
the node role, and the world is left untouched: no call of any kind (State,
GetConfiguration, Apply, HTTP forward) is made. -/
theorem C1_blank_key_rejected (env : Env) (form : RequestStore) (w : World)
    (h : ∀ c ∈ form.Key.data, isSpace c = true) :
    store_handler.Store env (Except.ok form) w
        = ({ status := 422, body := RespBody.error "key is empty" }, w)
      ∧ store_handler_inline.Store env (Except.ok form) w
        = ({ status := 422, body := RespBody.error "key is empty" }, w) := by
  have hk : TrimSpace form.Key = "" := TrimSpace_of_all_space form.Key h
  constructor
  · simp [store_handler.Store, hk]
  · simp [store_handler_inline.Store, hk]

/-- C1 at a concrete request: the key is three white-space characters, on a
leader with an empty store. -/
theorem C1_blank_key_rejected_witness :
    (∀ c ∈ (" \t ".data), isSpace c = true) ∧
    (store_handler.Store (sampleEnv RaftState.Leader 200)
        (Except.ok { Key := " \t ", Value := GoValue.json Json.null }) emptyWorld
          = ({ status := 422, body := RespBody.error "key is empty" }, emptyWorld)
      ∧ store_handler_inline.Store (sampleEnv RaftState.Leader 200)
          (Except.ok { Key := " \t ", Value := GoValue.json Json.null }) emptyWorld
          = ({ status := 422, body := RespBody.error "key is empty" }, emptyWorld)) :=
  ⟨by decide,
    C1_blank_key_rejected (sampleEnv RaftState.Leader 200)
      { Key := " \t ", Value := GoValue.json Json.null } emptyWorld (by decide)⟩

/-! ### The write router: `StoreData` -/

/-- On a leader whose command encodes to `payload`, `StoreData` is one State
query followed by one Apply; its result is decided by the apply future, and
the store is the one the FSM left when the entry was applied. -/
theorem StoreData_leader (env : Env) (data : RequestStore) (w : World) (payload : Bytes)
    (hLeader : env.stateAt w.trace.length = RaftState.Leader)
    (hEnc : env.codec.marshalCommand
      { Operation := "SET", Key := data.Key, Value := data.Value } = Except.ok payload) :
    StoreData env data w =
      ((match env.applyErr (w.trace.length + 1) payload with
        | some err => some ("error persisting data in raft cluster: " ++ err)
        | none =>
          match (env.fsm payload w.db).2 with
          | FsmResponse.other => some "error response is not match apply response"
          | FsmResponse.applyResponse => none),
       { w with
         db := (match env.applyErr (w.trace.length + 1) payload with
                | some _ => w.db
                | none => (env.fsm payload w.db).1),
         trace := w.trace ++ [Event.State, Event.Apply payload 500] }) := by
  simp only [StoreData, raftState, hLeader, storeOnLeadeer, hEnc, raftApply, World.emit,
    List.length_append, List.length_singleton]
  cases hA : env.applyErr (w.trace.length + 1) payload with
  | some err => simp
  | none =>
    cases hF : (env.fsm payload w.db).2 with
    | other => simp [hF]
    | applyResponse => simp [hF]

/-- C2: on a leader, for a request whose command encodes to `payload`,
StoreData submits exactly one Apply call, carrying `payload` (the JSON encoding
of the Command SET, key, value) with a 500 ms timeout, and it returns an error
exactly when the apply future reports an error or the future's response is not
an ApplyResponse. -/
theorem C2_leader_submits_one_apply (env : Env) (data : RequestStore) (w : World)
    (payload : Bytes)
    (hLeader : env.stateAt w.trace.length = RaftState.Leader)
    (hEnc : env.codec.marshalCommand
      { Operation := "SET", Key := data.Key, Value := data.Value } = Except.ok payload) :
    newEvents w (StoreData env data w).2 = [Event.State, Event.Apply payload 500]
      ∧ ((StoreData env data w).1 ≠ none ↔
          (env.applyErr (w.trace.length + 1) payload ≠ none
            ∨ (env.fsm payload w.db).2 ≠ FsmResponse.applyResponse)) := by
  rw [StoreData_leader env data w payload hLeader hEnc]
  refine ⟨by simp [newEvents], ?_⟩
  cases hA : env.applyErr (w.trace.length + 1) payload with
  | some err => simp
  | none =>
    cases hF : (env.fsm payload w.db).2 with
    | other => simp
    | applyResponse => simp

/-- C2 at a concrete request: `{key: "x", value: 1}` on a leader. -/
theorem C2_leader_submits_one_apply_witness :
    newEvents emptyWorld (StoreData (sampleEnv RaftState.Leader 200) sampleRequest emptyWorld).2
        = [Event.State, Event.Apply "\x7b\"Operation\":\"SET\",\"Key\":\"x\",\"Value\":1\x7d" 500]
      ∧ ((StoreData (sampleEnv RaftState.Leader 200) sampleRequest emptyWorld).1 ≠ none ↔
          ((sampleEnv RaftState.Leader 200).applyErr (emptyWorld.trace.length + 1)
              "\x7b\"Operation\":\"SET\",\"Key\":\"x\",\"Value\":1\x7d" ≠ none
            ∨ ((sampleEnv RaftState.Leader 200).fsm
                "\x7b\"Operation\":\"SET\",\"Key\":\"x\",\"Value\":1\x7d" emptyWorld.db).2
                  ≠ FsmResponse.applyResponse)) :=
  C2_leader_submits_one_apply (sampleEnv RaftState.Leader 200) sampleRequest emptyWorld
    "\x7b\"Operation\":\"SET\",\"Key\":\"x\",\"Value\":1\x7d" rfl rfl

/-- On a node that is not leader, `StoreData` returns nil whatever the forward
step returned. -/
theorem StoreData_not_leader (env : Env) (data : RequestStore) (w : World)
    (hNot : env.stateAt w.trace.length ≠ RaftState.Leader) :
    StoreData env data w = (none, (passToLeaderAndStore env data (w.emit Event.State)).2) := by
  unfold StoreData raftState
  cases hS : env.stateAt w.trace.length with
  | Leader => exact absurd hS hNot
  | Follower => rfl
  | Candidate => rfl
  | Shutdown => rfl

/-- The calls of `actualGetData`: exactly one read of the store. -/
theorem actualGetData_world (key : String) (w : World) :
    (actualGetData key w).2 = w.emit (Event.DbGet key) := by
  unfold actualGetData
  by_cases hE : key = ""
  · simp [hE]
  · simp only [hE, if_false]
    cases hK : w.db key with
    | some b => rfl
    | none => cases hR : w.readErr key <;> rfl

/-- A read of a key that is not empty and for which the store yields `b`. -/
theorem actualGetData_of_record (key : String) (w : World) (b : Bytes)
    (hKey : key ≠ "") (hRec : w.db key = some b) :
    actualGetData key w = (Except.ok b, w.emit (Event.DbGet key)) := by
  simp [actualGetData, hKey, hRec]

/-- A read of a key for which the store yields no value fails. -/
theorem actualGetData_of_absent (key : String) (w : World) (hRec : w.db key = none) :
    ∃ e, actualGetData key w = (Except.error e, w.emit (Event.DbGet key)) := by
  by_cases hE : key = ""
  · exact ⟨"error getting key " ++ key ++ " from storage: " ++ "Key cannot be empty",
      by simp [actualGetData, hE]⟩
  · cases hR : w.readErr key with
    | get msg =>
      exact ⟨"error getting key " ++ key ++ " from storage: " ++ msg,
        by simp [actualGetData, hE, hRec, hR]⟩
    | value msg =>
      exact ⟨"error appending byte value of key " ++ key ++ " from storage: " ++ msg,
        by simp [actualGetData, hE, hRec, hR]⟩

/-- The calls of `GetNodeData`: exactly one read of the store. -/
theorem GetNodeData_world (env : Env) (key : String) (w : World) :
    (GetNodeData env key w).2 = w.emit (Event.DbGet key) := by
  have hW := actualGetData_world key w
  unfold GetNodeData
  cases hA : actualGetData key w with
  | mk r w1 =>
    rw [hA] at hW
    simp only at hW
    subst hW
    cases r with
    | error e => rfl
    | ok b =>
      by_cases hL : b.length > 0
      · simp only [hL, if_true]
        cases hD : env.codec.unmarshalConfig b <;> rfl
      · simp only [hL, if_false]

/-- A `CurrentLeader` record that holds a decodable document is what
`GetNodeData` returns. -/
theorem GetNodeData_of_record (env : Env) (key : String) (w : World) (b : Bytes)
    (leader : Config) (hKey : key ≠ "") (hRec : w.db key = some b) (hLen : b.length > 0)
    (hDec : env.codec.unmarshalConfig b = Except.ok leader) :
    GetNodeData env key w = (Except.ok leader, w.emit (Event.DbGet key)) := by
  simp [GetNodeData, actualGetData_of_record key w b hKey hRec, hLen, hDec]

/-- When the store yields no value for `key`, `GetNodeData` fails. -/
theorem GetNodeData_of_absent (env : Env) (key : String) (w : World)
    (hRec : w.db key = none) :
    ∃ e, GetNodeData env key w = (Except.error e, w.emit (Event.DbGet key)) := by
  obtain ⟨e, hE⟩ := actualGetData_of_absent key w hRec
  exact ⟨"error unmarshal data to interface: " ++ e, by simp [GetNodeData, hE]⟩

/-- The calls of `passToLeaderAndStore`: one read of the store, followed by at
most one POST, to a URL of the form http://<address>/store. -/
theorem passToLeaderAndStore_trace (env : Env) (data : RequestStore) (w : World) :
    (passToLeaderAndStore env data w).2.trace = w.trace ++ [Event.DbGet "CurrentLeader"]
      ∨ ∃ addr body, (passToLeaderAndStore env data w).2.trace
          = w.trace ++ [Event.DbGet "CurrentLeader",
              Event.HttpPost ("http://" ++ addr ++ "/store") "application/json" body] := by
  unfold passToLeaderAndStore
  have hW := GetNodeData_world env "CurrentLeader" w
  cases hG : GetNodeData env "CurrentLeader" w with
  | mk r w1 =>
    rw [hG] at hW
    simp only at hW
    subst hW
    cases r with
    | error e => left; rfl
    | ok leader =>
      right
      refine ⟨leader.Server.Address, bytesOrNil (env.codec.marshalRequestStore data), ?_⟩
      simp only [httpPost]
      generalize env.httpPost _ _ _ = r
      cases r <;> simp [World.emit]

/-- The calls of `storeOnLeadeer`: nothing, or one Apply. -/
theorem storeOnLeadeer_trace (env : Env) (req : RequestStore) (w : World) :
    (storeOnLeadeer env req w).2.trace = w.trace
      ∨ ∃ payload, (storeOnLeadeer env req w).2.trace = w.trace ++ [Event.Apply payload 500] := by
  unfold storeOnLeadeer
  cases hM : env.codec.marshalCommand
      { Operation := "SET", Key := req.Key, Value := req.Value } with
  | error e => left; simp [hM]
  | ok payload =>
    right
    refine ⟨payload, ?_⟩
    simp only [raftApply, hM]
    cases hA : env.applyErr w.trace.length payload with
    | some err => simp [World.emit]
    | none =>
      cases hF : (env.fsm payload w.db).2 <;> simp [World.emit, hF]

/-- With a decodable `CurrentLeader` record, `passToLeaderAndStore` reads it
and sends one POST, whose outcome alone decides the result. -/
theorem passToLeaderAndStore_of_record (env : Env) (data : RequestStore) (w : World)
    (b : Bytes) (leader : Config)
    (hRec : w.db "CurrentLeader" = some b) (hLen : b.length > 0)
    (hDec : env.codec.unmarshalConfig b = Except.ok leader) :
    passToLeaderAndStore env data w
      = ((match env.httpPost (w.trace.length + 1)
              ("http://" ++ leader.Server.Address ++ "/store")
              (bytesOrNil (env.codec.marshalRequestStore data)) with
          | HttpResult.connError err => some err
          | HttpResult.response _ => none),
         { w with
           trace := w.trace ++ [Event.DbGet "CurrentLeader",
             Event.HttpPost ("http://" ++ leader.Server.Address ++ "/store") "application/json"
               (bytesOrNil (env.codec.marshalRequestStore data))] }) := by
  simp only [passToLeaderAndStore, GetNodeData_of_record env "CurrentLeader" w b leader
    (by decide) hRec hLen hDec, httpPost]
  simp only [World.emit, List.length_append, List.length_singleton]
  cases env.httpPost (w.trace.length + 1) ("http://" ++ leader.Server.Address ++ "/store")
      (bytesOrNil (env.codec.marshalRequestStore data)) <;> simp

/-- C3, the code at the failing input: on a follower whose store holds no
CurrentLeader record the forward step fails with the lookup error, no request
is sent, and StoreData nevertheless returns nil (success) to its caller, so
the Store handler answers 200. -/
theorem C3_no_leader_record_error_dropped :
    (passToLeaderAndStore (sampleEnv RaftState.Follower 200) sampleRequest
        (emptyWorld.emit Event.State)).1
        = some ("error unmarshal data to interface: "
            ++ "error getting key CurrentLeader from storage: Key not found")
      ∧ StoreData (sampleEnv RaftState.Follower 200) sampleRequest emptyWorld
        = (none, { db := emptyWorld.db, trace := [Event.State, Event.DbGet "CurrentLeader"] })
      ∧ (store_handler.Store (sampleEnv RaftState.Follower 200) (Except.ok sampleRequest)
          emptyWorld).1.status = 200 := by
  refine ⟨rfl, rfl, rfl⟩

/-- C4 as stated fails: on a follower holding a CurrentLeader record, a forward
that the leader answers with status 500 still makes StoreData return success,
and the Store handler answers 200. -/
theorem C4_counterexample :
    (sampleEnv RaftState.Follower 500).httpPost 2 "http://n1:2221/store"
        "\x7b\"key\":\"x\",\"value\":1\x7d" = HttpResult.response 500
      ∧ newEvents worldWithLeader
          (StoreData (sampleEnv RaftState.Follower 500) sampleRequest worldWithLeader).2
        = [Event.State, Event.DbGet "CurrentLeader",
           Event.HttpPost "http://n1:2221/store" "application/json" "\x7b\"key\":\"x\",\"value\":1\x7d"]
      ∧ ¬ ((StoreData (sampleEnv RaftState.Follower 500) sampleRequest worldWithLeader).1 = none
            ↔ (sampleEnv RaftState.Follower 500).httpPost 2 "http://n1:2221/store"
                "\x7b\"key\":\"x\",\"value\":1\x7d" = HttpResult.response 200)
      ∧ (store_handler.Store (sampleEnv RaftState.Follower 500) (Except.ok sampleRequest)
          worldWithLeader).1.status = 200 := by
  refine ⟨rfl, rfl, ?_, rfl⟩
  intro h
  have h1 : (StoreData (sampleEnv RaftState.Follower 500) sampleRequest worldWithLeader).1
      = none := rfl
  have h2 := h.mp h1
  simp [sampleEnv] at h2

/-- C4 amended: on a node that is not leader and whose CurrentLeader record
decodes to `leader`, StoreData makes one forward, a POST of the JSON request to
http://<leader.Server.Address>/store; the forward step reports success exactly
when the request was delivered, whatever status the leader answered, and
whenever it was delivered StoreData returns success. -/
theorem C4_forward_outcome (env : Env) (data : RequestStore) (w : World) (b : Bytes)
    (leader : Config)
    (hNot : env.stateAt w.trace.length ≠ RaftState.Leader)
    (hRec : w.db "CurrentLeader" = some b) (hLen : b.length > 0)
    (hDec : env.codec.unmarshalConfig b = Except.ok leader) :
    newEvents w (StoreData env data w).2
        = [Event.State, Event.DbGet "CurrentLeader",
           Event.HttpPost ("http://" ++ leader.Server.Address ++ "/store") "application/json"
             (bytesOrNil (env.codec.marshalRequestStore data))]
      ∧ ((passToLeaderAndStore env data (w.emit Event.State)).1 = none
          ↔ ∃ status, env.httpPost (w.trace.length + 2)
              ("http://" ++ leader.Server.Address ++ "/store")
              (bytesOrNil (env.codec.marshalRequestStore data)) = HttpResult.response status)
      ∧ ((∃ status, env.httpPost (w.trace.length + 2)
              ("http://" ++ leader.Server.Address ++ "/store")
              (bytesOrNil (env.codec.marshalRequestStore data)) = HttpResult.response status)
          → (StoreData env data w).1 = none) := by
  rw [StoreData_not_leader env data w hNot]
  rw [passToLeaderAndStore_of_record env data (w.emit Event.State) b leader
    (by simpa [World.emit] using hRec) hLen hDec]
  simp only [World.emit, List.length_append, List.length_singleton, newEvents]
  cases hP : env.httpPost (w.trace.length + 1 + 1)
      ("http://" ++ leader.Server.Address ++ "/store")
      (bytesOrNil (env.codec.marshalRequestStore data)) with
  | connError err => simp [hP]
  | response status => simp [hP]

/-- C4 amended, at a concrete request: a follower forwarding to `n1:2221`. -/
theorem C4_forward_outcome_witness :
    newEvents worldWithLeader
        (StoreData (sampleEnv RaftState.Follower 500) sampleRequest worldWithLeader).2
        = [Event.State, Event.DbGet "CurrentLeader",
           Event.HttpPost ("http://" ++ sampleConfig.Server.Address ++ "/store")
             "application/json"
             (bytesOrNil ((sampleEnv RaftState.Follower 500).codec.marshalRequestStore
               sampleRequest))]
      ∧ ((passToLeaderAndStore (sampleEnv RaftState.Follower 500) sampleRequest
            (worldWithLeader.emit Event.State)).1 = none
          ↔ ∃ status, (sampleEnv RaftState.Follower 500).httpPost
              (worldWithLeader.trace.length + 2)
              ("http://" ++ sampleConfig.Server.Address ++ "/store")
              (bytesOrNil ((sampleEnv RaftState.Follower 500).codec.marshalRequestStore
                sampleRequest)) = HttpResult.response status)
      ∧ ((∃ status, (sampleEnv RaftState.Follower 500).httpPost
              (worldWithLeader.trace.length + 2)
              ("http://" ++ sampleConfig.Server.Address ++ "/store")
              (bytesOrNil ((sampleEnv RaftState.Follower 500).codec.marshalRequestStore
                sampleRequest)) = HttpResult.response status)
          → (StoreData (sampleEnv RaftState.Follower 500) sampleRequest worldWithLeader).1
              = none) :=
  C4_forward_outcome (sampleEnv RaftState.Follower 500) sampleRequest worldWithLeader
    (sampleMarshalConfig sampleConfig) sampleConfig (by decide) rfl (by decide) rfl

/-- C5: every call of StoreData makes exactly one State query, its first call,
and takes one path from it: on a node that is not leader no Apply is submitted
and at most one HTTP POST is issued; on a leader no HTTP request is issued. -/
theorem C5_single_path (env : Env) (data : RequestStore) (w : World) :
    ∃ evs, (StoreData env data w).2.trace = w.trace ++ Event.State :: evs
      ∧ evs.all (fun e => !e.isState) = true
      ∧ (env.stateAt w.trace.length ≠ RaftState.Leader →
          evs.all (fun e => !e.isApply) = true ∧ evs.countP Event.isHttpPost ≤ 1)
      ∧ (env.stateAt w.trace.length = RaftState.Leader →
          evs.all (fun e => !e.isHttp) = true) := by
  by_cases hL : env.stateAt w.trace.length = RaftState.Leader
  · have hS : (StoreData env data w).2 = (storeOnLeadeer env data (w.emit Event.State)).2 := by
      simp only [StoreData, raftState, hL]
      cases storeOnLeadeer env data (w.emit Event.State) with
      | mk r w2 => cases r <;> rfl
    rcases storeOnLeadeer_trace env data (w.emit Event.State) with h | ⟨payload, h⟩
    · refine ⟨[], ?_, by simp, fun hn => absurd hL hn, fun _ => by simp⟩
      rw [hS, h]; simp [World.emit]
    · refine ⟨[Event.Apply payload 500], ?_, by simp [Event.isState],
        fun hn => absurd hL hn, fun _ => by simp [Event.isHttp]⟩
      rw [hS, h]; simp [World.emit]
  · rw [StoreData_not_leader env data w hL]
    rcases passToLeaderAndStore_trace env data (w.emit Event.State) with h | ⟨url, body, h⟩
    · refine ⟨[Event.DbGet "CurrentLeader"], ?_, by simp [Event.isState],
        fun _ => by simp [Event.isApply, Event.isHttpPost], fun hl => absurd hl hL⟩
      simp only [h]; simp [World.emit]
    · refine ⟨[Event.DbGet "CurrentLeader",
          Event.HttpPost ("http://" ++ url ++ "/store") "application/json" body], ?_,
        by simp [Event.isState], fun _ => by simp [Event.isApply, Event.isHttpPost],
        fun hl => absurd hl hL⟩
      simp only [h]; simp [World.emit]

/-! ### Store then Get -/

/-- C6 as stated fails for a JSON value that is not a float64: a client stores
9007199254740993 under "x" on a leader, Store answers 200, and Get of "x" on
that node returns 9007199254740992, the float64 the request was decoded to. -/
theorem C6_counterexample :
    Bind (sampleEnvFsm RaftState.Leader 200) "\x7b\"key\":\"x\",\"value\":9007199254740993\x7d"
        = Except.ok { Key := "x",
                      Value := GoValue.json (Json.num { mantissa := 9007199254740992,
                                                        exponent := 0 }) }
      ∧ (store_handler.Store (sampleEnvFsm RaftState.Leader 200)
          (Bind (sampleEnvFsm RaftState.Leader 200)
            "\x7b\"key\":\"x\",\"value\":9007199254740993\x7d") emptyWorld).1.status = 200
      ∧ (store_handler.Get (sampleEnvFsm RaftState.Leader 200) "x"
          (store_handler.Store (sampleEnvFsm RaftState.Leader 200)
            (Bind (sampleEnvFsm RaftState.Leader 200)
              "\x7b\"key\":\"x\",\"value\":9007199254740993\x7d") emptyWorld).2).1
        = { status := 200,
            body := RespBody.fetched "success fetching data" "x"
              (Json.num { mantissa := 9007199254740992, exponent := 0 }) }
      ∧ (sampleEnvFsm RaftState.Leader 200).codec.marshal
          (GoValue.json (Json.num { mantissa := 9007199254740992, exponent := 0 }))
        = Except.ok "9007199254740992"
      ∧ "9007199254740992" ≠ "9007199254740993" := by
  refine ⟨rfl, rfl, rfl, rfl, by decide⟩

/-- C6 amended: on a node whose substrate runs this repository's state machine,
when Store of key k and request value v (as the handler decoded it, numbers
being float64) is answered 200 on a leader, the state machine has decoded the
SET Command sent to it and the store holds the encoding `b` of the decoded
value under the decoded key; Get of k then answers with the decoding of `b`
when the decoded key is the trimmed k.  In particular, when `encoding/json`
returns the command it was given and decodes `b` to the value it encoded, Get
of k is answered 200 with the trimmed k and v. -/
theorem C6_store_then_get (env : Env) (k : String) (v : GoValue) (w : World)
    (hFsm : env.fsm = fsmApply env.codec)
    (hLeader : env.stateAt (w.trace.length + 1) = RaftState.Leader)
    (hOk : (store_handler.Store env (Except.ok { Key := k, Value := v }) w).1.status = 200) :
    ∃ p cmd b,
      env.codec.marshalCommand { Operation := "SET", Key := TrimSpace k, Value := v }
          = Except.ok p
        ∧ env.codec.unmarshalCommand p = Except.ok cmd
        ∧ env.codec.marshal cmd.Value = Except.ok b
        ∧ (store_handler.Store env (Except.ok { Key := k, Value := v }) w).2.db cmd.Key = some b
        ∧ (cmd.Key = TrimSpace k →
            (store_handler.Get env k
                (store_handler.Store env (Except.ok { Key := k, Value := v }) w).2).1
              = if b.length > 0 then
                  match env.codec.unmarshal b with
                  | Except.ok j =>
                    { status := 200,
                      body := RespBody.fetched "success fetching data" (TrimSpace k) j }
                  | Except.error e =>
                    { status := 422,
                      body := RespBody.errorValue
                        ("error unmarshal data to interface: " ++ e) }
                else
                  { status := 200,
                    body := RespBody.fetched "success fetching data" (TrimSpace k) Json.null })
        ∧ (∀ j, v = GoValue.json j →
            cmd = { Operation := "SET", Key := TrimSpace k, Value := v } →
            b.length > 0 → env.codec.unmarshal b = Except.ok j →
            (store_handler.Get env k
                (store_handler.Store env (Except.ok { Key := k, Value := v }) w).2).1
              = { status := 200,
                  body := RespBody.fetched "success fetching data" (TrimSpace k) j }) := by
  have hKey : TrimSpace k ≠ "" := by
    intro h
    simp [store_handler.Store, h] at hOk
  cases hC : env.configurationErr w.trace.length with
  | some e => simp [store_handler.Store, hKey, raftGetConfiguration, hC] at hOk
  | none =>
    cases hM : env.codec.marshalCommand
        { Operation := "SET", Key := TrimSpace k, Value := v } with
    | error e =>
      simp [store_handler.Store, hKey, raftGetConfiguration, hC, StoreData, raftState,
        World.emit, hLeader, storeOnLeadeer, hM] at hOk
    | ok p =>
      have hS := StoreData_leader env { Key := TrimSpace k, Value := v }
        (w.emit Event.GetConfiguration) p (by simpa [World.emit] using hLeader) hM
      simp only [store_handler.Store, hKey, if_false, raftGetConfiguration, hC, hS] at hOk ⊢
      cases hA : env.applyErr ((w.emit Event.GetConfiguration).trace.length + 1) p with
      | some err => simp [hA] at hOk
      | none =>
        simp only [hA, hFsm, fsmApply] at hOk ⊢
        cases hU : env.codec.unmarshalCommand p with
        | error e => simp [hU] at hOk
        | ok cmd =>
          simp only [hU] at hOk ⊢
          by_cases hSet : cmd.Operation = "SET"
          · simp only [hSet, if_true] at hOk ⊢
            cases hV : env.codec.marshal cmd.Value with
            | error e => simp [hV] at hOk
            | ok b =>
              have hGet : cmd.Key = TrimSpace k →
                  (store_handler.Get env k
                    { w.emit Event.GetConfiguration with
                      db := (w.emit Event.GetConfiguration).db.put cmd.Key b,
                      trace := (w.emit Event.GetConfiguration).trace
                        ++ [Event.State, Event.Apply p 500] }).1
                  = if b.length > 0 then
                      match env.codec.unmarshal b with
                      | Except.ok j =>
                        { status := 200,
                          body := RespBody.fetched "success fetching data" (TrimSpace k) j }
                      | Except.error e =>
                        { status := 422,
                          body := RespBody.errorValue
                            ("error unmarshal data to interface: " ++ e) }
                    else
                      { status := 200,
                        body := RespBody.fetched "success fetching data" (TrimSpace k)
                          Json.null } := by
                intro hk
                by_cases hLen : b.length > 0
                · cases hD : env.codec.unmarshal b with
                  | ok j =>
                    simp [store_handler.Get, hKey, GetData, actualGetData, Store.put, hk, hLen,
                      hD]
                  | error e =>
                    simp [store_handler.Get, hKey, GetData, actualGetData, Store.put, hk, hLen,
                      hD]
                · simp [store_handler.Get, hKey, GetData, actualGetData, Store.put, hk, hLen]
              refine ⟨p, cmd, b, rfl, hU, hV, by simp [Store.put], hGet, ?_⟩
              intro j _ hcmd hLen hD
              have hk : cmd.Key = TrimSpace k := by rw [hcmd]
              rw [hGet hk]
              simp [hLen, hD]
          · simp [hSet] at hOk

/-- C6 amended, at a concrete request: key " x " and value 1 stored on a leader. -/
theorem C6_store_then_get_witness :
    ∃ p cmd b,
      (sampleEnvFsm RaftState.Leader 200).codec.marshalCommand
          { Operation := "SET", Key := TrimSpace " x ", Value := GoValue.json (Json.num 1) }
          = Except.ok p
        ∧ (sampleEnvFsm RaftState.Leader 200).codec.unmarshalCommand p = Except.ok cmd
        ∧ (sampleEnvFsm RaftState.Leader 200).codec.marshal cmd.Value = Except.ok b
        ∧ (store_handler.Store (sampleEnvFsm RaftState.Leader 200)
            (Except.ok { Key := " x ", Value := GoValue.json (Json.num 1) }) emptyWorld).2.db
              cmd.Key = some b
        ∧ (cmd.Key = TrimSpace " x " →
            (store_handler.Get (sampleEnvFsm RaftState.Leader 200) " x "
                (store_handler.Store (sampleEnvFsm RaftState.Leader 200)
                  (Except.ok { Key := " x ", Value := GoValue.json (Json.num 1) })
                  emptyWorld).2).1
              = if b.length > 0 then
                  match (sampleEnvFsm RaftState.Leader 200).codec.unmarshal b with
                  | Except.ok j =>
                    { status := 200,
                      body := RespBody.fetched "success fetching data" (TrimSpace " x ") j }
                  | Except.error e =>
                    { status := 422,
                      body := RespBody.errorValue
                        ("error unmarshal data to interface: " ++ e) }
                else
                  { status := 200,
                    body := RespBody.fetched "success fetching data" (TrimSpace " x ")
                      Json.null })
        ∧ (∀ j, GoValue.json (Json.num 1) = GoValue.json j →
            cmd = { Operation := "SET", Key := TrimSpace " x ",
                    Value := GoValue.json (Json.num 1) } →
            b.length > 0 → (sampleEnvFsm RaftState.Leader 200).codec.unmarshal b = Except.ok j →
            (store_handler.Get (sampleEnvFsm RaftState.Leader 200) " x "
                (store_handler.Store (sampleEnvFsm RaftState.Leader 200)
                  (Except.ok { Key := " x ", Value := GoValue.json (Json.num 1) })
                  emptyWorld).2).1
              = { status := 200,
                  body := RespBody.fetched "success fetching data" (TrimSpace " x ") j }) :=
  C6_store_then_get (sampleEnvFsm RaftState.Leader 200) " x " (GoValue.json (Json.num 1))
    emptyWorld rfl rfl rfl

/-! ### The leadership-change listener -/

/-- C7: for one leadership-change notification, in both revisions of the
listener: when the state queried is not Leader the only call made is that
State query and the store is untouched; when it is Leader the listener calls
StoreData with key "CurrentLeader" and the node's own config as value, and if
the node is still leader at StoreData's own query and the command encodes to
`p`, that store is the one Apply of `p`, the encoding of the Command SET,
"CurrentLeader", config. -/
theorem C7_listener_records_self (env : Env) (conf : Config) (w : World) :
    (env.stateAt w.trace.length ≠ RaftState.Leader →
        server.onLeaderChange env conf w = (Except.ok (), w.emit Event.State)
          ∧ main.onLeaderChange env conf w = w.emit Event.State)
      ∧ (env.stateAt w.trace.length = RaftState.Leader →
          main.onLeaderChange env conf w
              = (StoreData env { Key := "CurrentLeader", Value := GoValue.config conf }
                  (w.emit Event.State)).2
            ∧ (server.onLeaderChange env conf w).2
              = (match StoreData env { Key := "CurrentLeader", Value := GoValue.config conf }
                    (w.emit Event.State) with
                 | (some _, w2) => w2
                 | (none, w2) => w2.emit (Event.DbGet "CurrentLeader")))
      ∧ (env.stateAt w.trace.length = RaftState.Leader →
          ∀ p, env.stateAt (w.trace.length + 1) = RaftState.Leader →
            env.codec.marshalCommand
              { Operation := "SET", Key := "CurrentLeader", Value := GoValue.config conf }
              = Except.ok p →
            newEvents w (main.onLeaderChange env conf w)
                = [Event.State, Event.State, Event.Apply p 500]
              ∧ (newEvents w (server.onLeaderChange env conf w).2).take 3
                = [Event.State, Event.State, Event.Apply p 500]) := by
  have hMain : env.stateAt w.trace.length = RaftState.Leader →
      main.onLeaderChange env conf w
        = (StoreData env { Key := "CurrentLeader", Value := GoValue.config conf }
            (w.emit Event.State)).2 := by
    intro hL
    simp [main.onLeaderChange, raftState, hL, currentLeaderRequest]
  have hServer : env.stateAt w.trace.length = RaftState.Leader →
      (server.onLeaderChange env conf w).2
        = (match StoreData env { Key := "CurrentLeader", Value := GoValue.config conf }
              (w.emit Event.State) with
           | (some _, w2) => w2
           | (none, w2) => w2.emit (Event.DbGet "CurrentLeader")) := by
    intro hL
    simp only [server.onLeaderChange, raftState, hL, currentLeaderRequest]
    cases hS : StoreData env { Key := "CurrentLeader", Value := GoValue.config conf }
        (w.emit Event.State) with
    | mk r w2 =>
      cases r with
      | some err => rfl
      | none =>
        simp only
        have hW := GetNodeData_world env "CurrentLeader" w2
        cases hG : GetNodeData env "CurrentLeader" w2 with
        | mk g w3 =>
          rw [hG] at hW
          cases g <;> exact hW
  refine ⟨?_, fun hL => ⟨hMain hL, hServer hL⟩, ?_⟩
  · intro hNot
    unfold server.onLeaderChange main.onLeaderChange raftState
    cases hS : env.stateAt w.trace.length with
    | Leader => exact absurd hS hNot
    | Follower => exact ⟨rfl, rfl⟩
    | Candidate => exact ⟨rfl, rfl⟩
    | Shutdown => exact ⟨rfl, rfl⟩
  · intro hL p hL2 hEnc
    have hS := StoreData_leader env { Key := "CurrentLeader", Value := GoValue.config conf }
      (w.emit Event.State) p (by simpa [World.emit] using hL2) hEnc
    rw [hMain hL, hServer hL, hS]
    constructor
    · simp [newEvents, World.emit]
    · cases env.applyErr ((w.emit Event.State).trace.length + 1) p with
      | some err => simp [newEvents, World.emit]
      | none =>
        cases (env.fsm p (w.emit Event.State).db).2 <;> simp [newEvents, World.emit]

/-- C7 at a concrete node: a leader with configuration `sampleConfig`. -/
theorem C7_listener_records_self_witness :
    newEvents emptyWorld
        (main.onLeaderChange (sampleEnv RaftState.Leader 200) sampleConfig emptyWorld)
        = [Event.State, Event.State,
           Event.Apply ("\x7b\"Operation\":\"SET\",\"Key\":\"CurrentLeader\",\"Value\":"
             ++ sampleMarshalConfig sampleConfig ++ "\x7d") 500]
      ∧ (newEvents emptyWorld
          (server.onLeaderChange (sampleEnv RaftState.Leader 200) sampleConfig
            emptyWorld).2).take 3
        = [Event.State, Event.State,
           Event.Apply ("\x7b\"Operation\":\"SET\",\"Key\":\"CurrentLeader\",\"Value\":"
             ++ sampleMarshalConfig sampleConfig ++ "\x7d") 500] :=
  (C7_listener_records_self (sampleEnv RaftState.Leader 200) sampleConfig emptyWorld).2.2 rfl
    ("\x7b\"Operation\":\"SET\",\"Key\":\"CurrentLeader\",\"Value\":"
      ++ sampleMarshalConfig sampleConfig ++ "\x7d") rfl rfl

/-! ### Leadership transfer -/

/-- C8: on a leader, PassLeadership makes one State query and one
LeadershipTransfer call and no other call (so no network request); it returns
the transfer future's error unchanged, nil exactly when that error is nil, and
the handler answers 200 exactly in that case. -/
theorem C8_leader_transfer (env : Env) (w : World)
    (hLeader : env.stateAt w.trace.length = RaftState.Leader) :
    newEvents w (PassLeadership env w).2 = [Event.State, Event.LeadershipTransfer]
      ∧ (PassLeadership env w).1 = env.transferErr (w.trace.length + 1)
      ∧ ((PassLeadership env w).1 = none ↔ env.transferErr (w.trace.length + 1) = none)
      ∧ ((raft_handler.PassLeadership env w).1.status = 200
          ↔ env.transferErr (w.trace.length + 1) = none) := by
  have hP : PassLeadership env w
      = (env.transferErr (w.trace.length + 1),
         { w with trace := w.trace ++ [Event.State, Event.LeadershipTransfer] }) := by
    simp only [PassLeadership, raftState, hLeader, raftLeadershipTransfer, World.emit,
      List.length_append, List.length_singleton]
    cases env.transferErr (w.trace.length + 1) <;> simp
  refine ⟨by simp [hP, newEvents], by rw [hP], by rw [hP], ?_⟩
  simp only [raft_handler.PassLeadership, hP]
  cases env.transferErr (w.trace.length + 1) <;> simp

/-- C8 at a concrete node: a leader whose transfer succeeds. -/
theorem C8_leader_transfer_witness :
    newEvents emptyWorld (PassLeadership (sampleEnv RaftState.Leader 200) emptyWorld).2
        = [Event.State, Event.LeadershipTransfer]
      ∧ (PassLeadership (sampleEnv RaftState.Leader 200) emptyWorld).1
        = (sampleEnv RaftState.Leader 200).transferErr (emptyWorld.trace.length + 1)
      ∧ ((PassLeadership (sampleEnv RaftState.Leader 200) emptyWorld).1 = none
          ↔ (sampleEnv RaftState.Leader 200).transferErr (emptyWorld.trace.length + 1) = none)
      ∧ ((raft_handler.PassLeadership (sampleEnv RaftState.Leader 200) emptyWorld).1.status = 200
          ↔ (sampleEnv RaftState.Leader 200).transferErr (emptyWorld.trace.length + 1) = none) :=
  C8_leader_transfer (sampleEnv RaftState.Leader 200) emptyWorld rfl

/-- C9 as stated fails: on a follower holding a CurrentLeader record, when the
leader answers the forwarded GET with status 422, PassLeadership still returns
success and the handler answers 200. -/
theorem C9_counterexample :
    (sampleEnv RaftState.Follower 422).httpGet 2 "http://n1:2221/raft/pass_leadership"
        = HttpResult.response 422
      ∧ newEvents worldWithLeader (PassLeadership (sampleEnv RaftState.Follower 422)
          worldWithLeader).2
        = [Event.State, Event.DbGet "CurrentLeader",
           Event.HttpGet "http://n1:2221/raft/pass_leadership"]
      ∧ ¬ ((PassLeadership (sampleEnv RaftState.Follower 422) worldWithLeader).1 = none
            ↔ (sampleEnv RaftState.Follower 422).httpGet 2
                "http://n1:2221/raft/pass_leadership" = HttpResult.response 200)
      ∧ (raft_handler.PassLeadership (sampleEnv RaftState.Follower 422)
          worldWithLeader).1.status = 200 := by
  refine ⟨rfl, rfl, ?_, rfl⟩
  intro h
  have h1 : (PassLeadership (sampleEnv RaftState.Follower 422) worldWithLeader).1 = none := rfl
  have h2 := h.mp h1
  simp [sampleEnv] at h2

/-- C9 amended: on a node that is not leader and whose CurrentLeader record
decodes to `leader`, PassLeadership makes one forward, a GET of
http://<leader.Server.Address>/raft/pass_leadership; it returns success exactly
when the request was delivered, whatever status the leader answered, and it
returns the transport error when the request could not be delivered. -/
theorem C9_forward_outcome (env : Env) (w : World) (b : Bytes) (leader : Config)
    (hNot : env.stateAt w.trace.length ≠ RaftState.Leader)
    (hRec : w.db "CurrentLeader" = some b) (hLen : b.length > 0)
    (hDec : env.codec.unmarshalConfig b = Except.ok leader) :
    newEvents w (PassLeadership env w).2
        = [Event.State, Event.DbGet "CurrentLeader",
           Event.HttpGet ("http://" ++ leader.Server.Address ++ "/raft/pass_leadership")]
      ∧ ((PassLeadership env w).1 = none
          ↔ ∃ status, env.httpGet (w.trace.length + 2)
              ("http://" ++ leader.Server.Address ++ "/raft/pass_leadership")
                = HttpResult.response status)
      ∧ (∀ err, env.httpGet (w.trace.length + 2)
            ("http://" ++ leader.Server.Address ++ "/raft/pass_leadership")
              = HttpResult.connError err →
          (PassLeadership env w).1 = some err) := by
  have hG := GetNodeData_of_record env "CurrentLeader" (w.emit Event.State) b leader
    (by decide) (by simpa [World.emit] using hRec) hLen hDec
  have hP : PassLeadership env w
      = ((passToLeaderAndTransferLeadership env (w.emit Event.State)).1,
         (passToLeaderAndTransferLeadership env (w.emit Event.State)).2) := by
    unfold PassLeadership raftState
    cases hS : env.stateAt w.trace.length with
    | Leader => exact absurd hS hNot
    | Follower =>
      simp only
      cases passToLeaderAndTransferLeadership env (w.emit Event.State) with
      | mk r w2 => cases r <;> rfl
    | Candidate =>
      simp only
      cases passToLeaderAndTransferLeadership env (w.emit Event.State) with
      | mk r w2 => cases r <;> rfl
    | Shutdown =>
      simp only
      cases passToLeaderAndTransferLeadership env (w.emit Event.State) with
      | mk r w2 => cases r <;> rfl
  rw [hP]
  simp only [passToLeaderAndTransferLeadership, hG, httpGet]
  simp only [World.emit, List.length_append, List.length_singleton, newEvents]
  cases hH : env.httpGet (w.trace.length + 1 + 1)
      ("http://" ++ leader.Server.Address ++ "/raft/pass_leadership") with
  | connError err => simp [hH]
  | response status => simp [hH]

/-- C9 amended, at a concrete node: a follower forwarding to `n1:2221`. -/
theorem C9_forward_outcome_witness :
    newEvents worldWithLeader (PassLeadership (sampleEnv RaftState.Follower 422)
        worldWithLeader).2
        = [Event.State, Event.DbGet "CurrentLeader",
           Event.HttpGet ("http://" ++ sampleConfig.Server.Address ++ "/raft/pass_leadership")]
      ∧ ((PassLeadership (sampleEnv RaftState.Follower 422) worldWithLeader).1 = none
          ↔ ∃ status, (sampleEnv RaftState.Follower 422).httpGet
              (worldWithLeader.trace.length + 2)
              ("http://" ++ sampleConfig.Server.Address ++ "/raft/pass_leadership")
                = HttpResult.response status)
      ∧ (∀ err, (sampleEnv RaftState.Follower 422).httpGet (worldWithLeader.trace.length + 2)
            ("http://" ++ sampleConfig.Server.Address ++ "/raft/pass_leadership")
              = HttpResult.connError err →
          (PassLeadership (sampleEnv RaftState.Follower 422) worldWithLeader).1 = some err) :=
  C9_forward_outcome (sampleEnv RaftState.Follower 422) worldWithLeader
    (sampleMarshalConfig sampleConfig) sampleConfig (by decide) rfl (by decide) rfl

/-! ### Membership at start-up -/

/-- A POST to `<peer>/raft/join` is a join request. -/
theorem isJoinPost_join (peer contentType : String) (body : Bytes) :
    (Event.HttpPost (peer ++ "/raft/join") contentType body).isJoinPost = true := by
  simp only [Event.isJoinPost]
  rw [List.isSuffixOf_iff_suffix]
  exact ⟨peer.data, by simp [String.data_append]⟩

/-- A POST to `http://<address>/store` is not a join request. -/
theorem isJoinPost_store (addr contentType : String) (body : Bytes) :
    (Event.HttpPost ("http://" ++ addr ++ "/store") contentType body).isJoinPost = false := by
  simp only [Event.isJoinPost]
  rw [Bool.eq_false_iff]
  intro h
  rw [List.isSuffixOf_iff_suffix] at h
  obtain ⟨t, ht⟩ := h
  rw [String.data_append] at ht
  have h2 := congrArg List.getLast? ht
  rw [List.getLast?_append, List.getLast?_append] at h2
  have e1 : "/raft/join".data.getLast? = some 'n' := by decide
  have e2 : "/store".data.getLast? = some 'e' := by decide
  rw [e1, e2] at h2
  simp at h2

/-- The calls of `StoreData` include neither a bootstrap nor a join request. -/
theorem StoreData_no_membership (env : Env) (data : RequestStore) (w : World) :
    ∃ evs, (StoreData env data w).2.trace = w.trace ++ evs
      ∧ evs.any Event.isBootstrap = false ∧ evs.any Event.isJoinPost = false := by
  by_cases hL : env.stateAt w.trace.length = RaftState.Leader
  · have hS : (StoreData env data w).2 = (storeOnLeadeer env data (w.emit Event.State)).2 := by
      simp only [StoreData, raftState, hL]
      cases storeOnLeadeer env data (w.emit Event.State) with
      | mk r w2 => cases r <;> rfl
    rcases storeOnLeadeer_trace env data (w.emit Event.State) with h | ⟨payload, h⟩
    · refine ⟨[Event.State], ?_, by simp [Event.isBootstrap], by simp [Event.isJoinPost]⟩
      rw [hS, h]; simp [World.emit]
    · refine ⟨[Event.State, Event.Apply payload 500], ?_, by simp [Event.isBootstrap],
        by simp [Event.isJoinPost]⟩
      rw [hS, h]; simp [World.emit]
  · rw [StoreData_not_leader env data w hL]
    rcases passToLeaderAndStore_trace env data (w.emit Event.State) with h | ⟨addr, body, h⟩
    · refine ⟨[Event.State, Event.DbGet "CurrentLeader"], ?_, by simp [Event.isBootstrap],
        by simp [Event.isJoinPost]⟩
      simp only [h]; simp [World.emit]
    · refine ⟨[Event.State, Event.DbGet "CurrentLeader",
          Event.HttpPost ("http://" ++ addr ++ "/store") "application/json" body], ?_,
        by simp [Event.isBootstrap], ?_⟩
      · simp only [h]; simp [World.emit]
      · have hj := isJoinPost_store addr "application/json" body
        simp only [List.any_cons, List.any_nil, hj]
        rfl

/-- The calls of one pass over the peers: join requests only, at least one
when there is a peer. -/
theorem RetryJoinPeers_trace (env : Env) (peers : List String) :
    ∀ (buf : Bytes) (w : World),
      ∃ evs, (server.RetryJoinPeers env peers buf w).2.trace = w.trace ++ evs
        ∧ evs.all Event.isJoinPost = true ∧ (peers ≠ [] → evs ≠ []) := by
  induction peers with
  | nil => intro buf w; exact ⟨[], by simp [server.RetryJoinPeers], by simp, by simp⟩
  | cons peer rest ih =>
    intro buf w
    have hj := isJoinPost_join peer "application/json" buf
    simp only [server.RetryJoinPeers, httpPost]
    cases hP : env.httpPost w.trace.length (peer ++ "/raft/join") buf with
    | connError err =>
      obtain ⟨evs, hT, hA, _⟩ :=
        ih (if env.postBodyRead w.trace.length then "" else buf)
          (w.emit (Event.HttpPost (peer ++ "/raft/join") "application/json" buf))
      refine ⟨Event.HttpPost (peer ++ "/raft/join") "application/json" buf :: evs, ?_, ?_, ?_⟩
      · simp only [hT]; simp [World.emit]
      · simp [hj, hA]
      · simp
    | response status =>
      by_cases h200 : status = 200
      · refine ⟨[Event.HttpPost (peer ++ "/raft/join") "application/json" buf], ?_, ?_, ?_⟩
        · simp [h200, World.emit]
        · simp [hj]
        · simp
      · obtain ⟨evs, hT, hA, _⟩ :=
          ih "" (w.emit (Event.HttpPost (peer ++ "/raft/join") "application/json" buf))
        refine ⟨Event.HttpPost (peer ++ "/raft/join") "application/json" buf :: evs, ?_, ?_, ?_⟩
        · simp only [h200, if_false, hT]; simp [World.emit]
        · simp [hj, hA]
        · simp

/-- Join requests are not bootstraps. -/
theorem any_isBootstrap_of_all_join (evs : List Event)
    (h : evs.all Event.isJoinPost = true) : evs.any Event.isBootstrap = false := by
  rw [List.any_eq_false]
  intro e he
  have hj := List.all_eq_true.mp h e he
  cases e <;> simp_all [Event.isJoinPost, Event.isBootstrap]

/-- A non-empty list of join requests contains a join request. -/
theorem any_isJoinPost_of_all_join (evs : List Event)
    (h : evs.all Event.isJoinPost = true) (hne : evs ≠ []) :
    evs.any Event.isJoinPost = true := by
  cases evs with
  | nil => exact absurd rfl hne
  | cons e rest =>
    have he := List.all_eq_true.mp h e (List.mem_cons_self e rest)
    simp [he]

/-- The calls of one step of the join goroutine: no bootstrap; none at all
while the goroutine is not started, which it then stays; and at least one join
request in a pass over a list of peers that is not empty. -/
theorem stepJoin_trace (env : Env) (conf : Config) (p : server.Proc) :
    ∃ evs, (server.stepJoin env conf p).world.trace = p.world.trace ++ evs
      ∧ evs.any Event.isBootstrap = false
      ∧ (p.join = server.JoinPc.notStarted →
          evs = [] ∧ (server.stepJoin env conf p).join = server.JoinPc.notStarted)
      ∧ (p.join = server.JoinPc.pass → conf.Peers ≠ [] →
          evs.any Event.isJoinPost = true) := by
  cases hJ : p.join with
  | notStarted => exact ⟨[], by simp [server.stepJoin, hJ], by simp, by simp [server.stepJoin, hJ], by simp⟩
  | done => exact ⟨[], by simp [server.stepJoin, hJ], by simp, by simp, by simp⟩
  | pass =>
    obtain ⟨evs1, hT1, hA1, hN1⟩ :=
      RetryJoinPeers_trace env conf.Peers (joinBody env conf) p.world
    refine ⟨evs1, ?_, any_isBootstrap_of_all_join evs1 hA1, by simp,
      fun _ hp => any_isJoinPost_of_all_join evs1 hA1 (hN1 hp)⟩
    simp only [server.stepJoin, hJ, server.RetryJoin]
    exact hT1
  | test =>
    cases hE : p.err with
    | none => exact ⟨[], by simp [server.stepJoin, hJ, hE], by simp, by simp, by simp⟩
    | some msg =>
      exact ⟨[Event.Sleep 2000], by simp [server.stepJoin, hJ, hE, World.emit],
        by simp [Event.isBootstrap], by simp, by simp⟩

/-- The calls of one step of the listener goroutine: neither a bootstrap nor a
join request, and the join goroutine stays where it stands. -/
theorem stepListener_trace (env : Env) (conf : Config) (p : server.Proc) :
    ∃ evs, (server.stepListener env conf p).world.trace = p.world.trace ++ evs
      ∧ evs.any Event.isBootstrap = false ∧ evs.any Event.isJoinPost = false
      ∧ (server.stepListener env conf p).join = p.join := by
  cases hL : p.listener with
  | idle =>
    simp only [server.stepListener, hL, raftState]
    cases hS : env.stateAt p.world.trace.length with
    | Leader =>
      obtain ⟨evs, hT, hB, hJ⟩ := StoreData_no_membership env (currentLeaderRequest conf)
        (p.world.emit Event.State)
      refine ⟨Event.State :: evs, ?_, ?_, ?_, rfl⟩
      · simp only [hT]; simp [World.emit]
      · simp only [List.any_cons, hB]; rfl
      · simp only [List.any_cons, hJ]; rfl
    | Follower => exact ⟨[Event.State], by simp [World.emit], rfl, rfl, rfl⟩
    | Candidate => exact ⟨[Event.State], by simp [World.emit], rfl, rfl, rfl⟩
    | Shutdown => exact ⟨[Event.State], by simp [World.emit], rfl, rfl, rfl⟩
  | check =>
    simp only [server.stepListener, hL]
    cases hE : p.err with
    | some msg => exact ⟨[], by simp, rfl, rfl, rfl⟩
    | none =>
      have hW := GetNodeData_world env "CurrentLeader" p.world
      cases hG : GetNodeData env "CurrentLeader" p.world with
      | mk r w1 =>
        rw [hG] at hW
        simp only at hW
        subst hW
        cases r with
        | error e => exact ⟨[Event.DbGet "CurrentLeader"], by simp [World.emit], rfl, rfl, rfl⟩
        | ok c => exact ⟨[Event.DbGet "CurrentLeader"], by simp [World.emit], rfl, rfl, rfl⟩

/-- The calls of a run of the process: no bootstrap, and no join request while
the join goroutine is not started. -/
theorem run_trace (env : Env) (conf : Config) (gs : List Goroutine) :
    ∀ p : server.Proc, ∃ evs, (server.run env conf gs p).world.trace = p.world.trace ++ evs
      ∧ evs.any Event.isBootstrap = false
      ∧ (p.join = server.JoinPc.notStarted → evs.any Event.isJoinPost = false) := by
  induction gs with
  | nil => intro p; exact ⟨[], by simp [server.run], rfl, fun _ => rfl⟩
  | cons g rest ih =>
    intro p
    have hStep : ∃ evs, (server.step env conf g p).world.trace = p.world.trace ++ evs
        ∧ evs.any Event.isBootstrap = false
        ∧ (p.join = server.JoinPc.notStarted →
            evs.any Event.isJoinPost = false
              ∧ (server.step env conf g p).join = server.JoinPc.notStarted) := by
      unfold server.step
      cases hX : p.exited with
      | some msg => exact ⟨[], by simp, rfl, fun h => ⟨rfl, h⟩⟩
      | none =>
        cases g with
        | join =>
          obtain ⟨evs, hT, hB, hN, _⟩ := stepJoin_trace env conf p
          exact ⟨evs, hT, hB, fun h => ⟨by rw [(hN h).1]; rfl, (hN h).2⟩⟩
        | listener =>
          obtain ⟨evs, hT, hB, hJ, hK⟩ := stepListener_trace env conf p
          exact ⟨evs, hT, hB, fun h => ⟨hJ, by simp only; rw [hK, h]⟩⟩
    obtain ⟨evs1, hT1, hB1, hN1⟩ := hStep
    obtain ⟨evs2, hT2, hB2, hN2⟩ := ih (server.step env conf g p)
    refine ⟨evs1 ++ evs2, ?_, ?_, ?_⟩
    · simp only [server.run, hT2, hT1, List.append_assoc]
    · simp [List.any_append, hB1, hB2]
    · intro h
      simp [List.any_append, (hN1 h).1, hN2 (hN1 h).2]

/-- The calls of the join loop of `main`: no bootstrap, and at least one join
request once the loop runs. -/
theorem main_joinLoop_trace (env : Env) (conf : Config) (fuel : Nat) :
    ∀ w : World, ∃ evs, (main.joinLoop env conf fuel w).2.trace = w.trace ++ evs
      ∧ evs.any Event.isBootstrap = false
      ∧ (0 < fuel → evs.any Event.isJoinPost = true) := by
  induction fuel with
  | zero => intro w; exact ⟨[], by simp [main.joinLoop], by simp, by simp⟩
  | succ n ih =>
    intro w
    have hj := isJoinPost_join conf.Server.JoinAddress "application/json" (joinBody env conf)
    simp only [main.joinLoop, main.retryJoin, httpPost]
    cases hP : env.httpPost w.trace.length (conf.Server.JoinAddress ++ "/raft/join")
        (joinBody env conf) with
    | connError err =>
      refine ⟨[Event.HttpPost (conf.Server.JoinAddress ++ "/raft/join") "application/json"
        (joinBody env conf)], by simp [World.emit], by simp [Event.isBootstrap], ?_⟩
      intro _
      simp [hj]
    | response status =>
      by_cases h200 : status = 200
      · refine ⟨[Event.HttpPost (conf.Server.JoinAddress ++ "/raft/join") "application/json"
          (joinBody env conf), Event.Sleep 4000], by simp [h200, World.emit],
          by simp [Event.isBootstrap], ?_⟩
        intro _
        simp [hj]
      · obtain ⟨evs2, hT2, hB2, _⟩ := ih ((w.emit (Event.HttpPost
          (conf.Server.JoinAddress ++ "/raft/join") "application/json"
          (joinBody env conf))).emit (Event.Sleep 4000))
        refine ⟨Event.HttpPost (conf.Server.JoinAddress ++ "/raft/join") "application/json"
          (joinBody env conf) :: Event.Sleep 4000 :: evs2, ?_, ?_, ?_⟩
        · simp only [h200, if_false, hT2]; simp [World.emit]
        · simp [hB2, Event.isBootstrap]
        · intro _
          simp [hj]

/-- The new calls of a world whose trace extends `w.trace` by `evs`. -/
theorem newEvents_of_trace (w w2 : World) (evs : List Event)
    (h : w2.trace = w.trace ++ evs) : newEvents w w2 = evs := by
  simp [newEvents, h]

/-- C10 as stated fails: `SetupRaft` on a node with a peer list bootstraps and
also sends a join request (both paths), as does `main` on a node with the
bootstrap flag and a join address; `main` on a node with neither takes no
membership path at all. -/
theorem C10_counterexample :
    (sampleJoinConfig.Peers.length > 0
        ∧ (newEvents emptyWorld (server.SetupRaft (sampleEnv RaftState.Follower 200)
            sampleJoinConfig 1 emptyWorld).2).any Event.isBootstrap = true
        ∧ (newEvents emptyWorld (server.SetupRaft (sampleEnv RaftState.Follower 200)
            sampleJoinConfig 1 emptyWorld).2).any Event.isJoinPost = true)
      ∧ (sampleJoinConfig.Server.JoinAddress.length > 0
        ∧ (newEvents emptyWorld (main.startMembership (sampleEnv RaftState.Follower 200)
            sampleJoinConfig 1 emptyWorld).2).any Event.isBootstrap = true
        ∧ (newEvents emptyWorld (main.startMembership (sampleEnv RaftState.Follower 200)
            sampleJoinConfig 1 emptyWorld).2).any Event.isJoinPost = true)
      ∧ (¬ sampleIdleConfig.Server.JoinAddress.length > 0
        ∧ (newEvents emptyWorld (main.startMembership (sampleEnv RaftState.Follower 200)
            sampleIdleConfig 1 emptyWorld).2).any Event.isBootstrap = false
        ∧ (newEvents emptyWorld (main.startMembership (sampleEnv RaftState.Follower 200)
            sampleIdleConfig 1 emptyWorld).2).any Event.isJoinPost = false) := by
  refine ⟨⟨by decide, rfl, rfl⟩, ⟨by decide, rfl, rfl⟩, ⟨by decide, rfl, rfl⟩⟩

/-- C10 amended: the membership path taken at start-up depends on the entry
point.  `SetupRaft` always bootstraps, and runs the join loop exactly when the
peer list is not empty.  `main` of `main.go` bootstraps exactly when the
ServerBootstrap flag is set, and runs the join loop exactly when a join address
is set, the two independently.  `main` of `cmd/api/main.go` takes exactly one
path: the join loop when a join address is set, the bootstrap otherwise. -/
theorem C10_membership_paths (env : Env) (conf : Config) (fuel : Nat) (w : World)
    (hFuel : 0 < fuel) :
    ((newEvents w (server.SetupRaft env conf fuel w).2).any Event.isBootstrap = true
        ∧ ((newEvents w (server.SetupRaft env conf fuel w).2).any Event.isJoinPost = true
            ↔ conf.Peers.length > 0))
      ∧ ((newEvents w (main.startMembership env conf fuel w).2).any Event.isBootstrap
            = conf.Server.ServerBootstrap
        ∧ ((newEvents w (main.startMembership env conf fuel w).2).any Event.isJoinPost = true
            ↔ conf.Server.JoinAddress.length > 0))
      ∧ (((newEvents w (cmd_api.startMembership env conf fuel w).2).any Event.isBootstrap = true
            ↔ ¬ conf.Server.JoinAddress.length > 0)
        ∧ ((newEvents w (cmd_api.startMembership env conf fuel w).2).any Event.isJoinPost = true
            ↔ conf.Server.JoinAddress.length > 0)) := by
  refine ⟨?_, ?_, ?_⟩
  · -- SetupRaft
    obtain ⟨n, hn⟩ : ∃ n, fuel = n + 1 := ⟨fuel - 1, by omega⟩
    subst hn
    obtain ⟨evsJ, hTJ, hBJ, hNJ, hPJ⟩ := stepJoin_trace env conf
      (server.started conf (server.BootStrapServer conf (server.setupBadgerDB env w)))
    obtain ⟨evsS, hTS, hBS, hJS⟩ := StoreData_no_membership env
      { Key := "member_" ++ conf.Raft.NodeId, Value := GoValue.config conf }
      (server.stepJoin env conf (server.started conf
        (server.BootStrapServer conf (server.setupBadgerDB env w)))).world
    obtain ⟨evsR, hTR, hBR, hNR⟩ := run_trace env conf
      ((List.range (n + 1 - 1)).map env.schedule)
      { server.stepJoin env conf (server.started conf
          (server.BootStrapServer conf (server.setupBadgerDB env w))) with
        world := server.WatchLeaderChanges (StoreData env
          { Key := "member_" ++ conf.Raft.NodeId, Value := GoValue.config conf }
          (server.stepJoin env conf (server.started conf
            (server.BootStrapServer conf (server.setupBadgerDB env w)))).world).2 }
    have hT : (server.SetupRaft env conf (n + 1) w).2.trace
        = w.trace ++ ([Event.DbOpen, Event.DbClose, Event.BootstrapCluster conf.Raft.NodeId]
            ++ evsJ ++ evsS ++ [Event.RegisterObserver] ++ evsR) := by
      simp only [server.SetupRaft]
      rw [hTR]
      simp only [server.WatchLeaderChanges, World.emit, hTS, hTJ]
      simp [server.started, server.BootStrapServer, BootstrapCluster, server.setupBadgerDB,
        World.emit]
    rw [newEvents_of_trace w _ _ hT]
    refine ⟨by simp [Event.isBootstrap], ?_⟩
    by_cases hP : conf.Peers.length > 0
    · have hne : conf.Peers ≠ [] := by
        intro h; rw [h] at hP; simp at hP
      have hJ := hPJ (by simp [server.started, hP]) hne
      simp [hP, hJ]
    · have hNot := hNJ (by simp [server.started, hP])
      have hR := hNR (by simpa using hNot.2)
      simp only [hP, iff_false, Bool.not_eq_true]
      simp only [List.any_append, List.any_cons, List.any_nil, hNot.1, hJS, hR]
      rfl
  · -- main.go
    by_cases hJA : conf.Server.JoinAddress.length > 0
    · by_cases hB : conf.Server.ServerBootstrap = true
      · obtain ⟨evsJ, hTJ, hBJ, hJ⟩ := main_joinLoop_trace env conf fuel (BootstrapCluster conf w)
        have hT : (main.startMembership env conf fuel w).2.trace
            = w.trace ++ (Event.BootstrapCluster conf.Raft.NodeId :: evsJ) := by
          simp only [main.startMembership, hJA, if_true, hB, hTJ]
          simp [BootstrapCluster, World.emit]
        rw [newEvents_of_trace w _ _ hT]
        simp [hB, hJA, hJ hFuel, Event.isBootstrap]
      · obtain ⟨evsJ, hTJ, hBJ, hJ⟩ := main_joinLoop_trace env conf fuel w
        have hT : (main.startMembership env conf fuel w).2.trace = w.trace ++ evsJ := by
          simp only [main.startMembership, hJA, if_true, hB, hTJ]
          simp [hTJ]
        rw [newEvents_of_trace w _ _ hT]
        simp only [Bool.not_eq_true] at hB
        simp [hB, hJA, hJ hFuel, hBJ]
    · by_cases hB : conf.Server.ServerBootstrap = true
      · have hT : (main.startMembership env conf fuel w).2.trace
            = w.trace ++ [Event.BootstrapCluster conf.Raft.NodeId] := by
          simp [main.startMembership, hJA, hB, BootstrapCluster, World.emit]
        rw [newEvents_of_trace w _ _ hT]
        simp only [hJA, iff_false, Bool.not_eq_true, hB]
        exact ⟨rfl, rfl⟩
      · have hT : (main.startMembership env conf fuel w).2.trace = w.trace ++ [] := by
          simp [main.startMembership, hJA, hB]
        rw [newEvents_of_trace w _ _ hT]
        simp only [Bool.not_eq_true] at hB
        simp [hB, hJA]
  · -- cmd/api/main.go
    by_cases hJA : conf.Server.JoinAddress.length > 0
    · obtain ⟨evsJ, hTJ, hBJ, hJ⟩ := main_joinLoop_trace env conf fuel w
      have hT : (cmd_api.startMembership env conf fuel w).2.trace = w.trace ++ evsJ := by
        simp only [cmd_api.startMembership, hJA, if_true, hTJ]
      rw [newEvents_of_trace w _ _ hT]
      simp [hJA, hJ hFuel, hBJ]
    · have hT : (cmd_api.startMembership env conf fuel w).2.trace
          = w.trace ++ [Event.BootstrapCluster conf.Raft.NodeId] := by
        simp [cmd_api.startMembership, hJA, BootstrapCluster, World.emit]
      rw [newEvents_of_trace w _ _ hT]
      simp only [hJA, iff_false, Bool.not_eq_true, not_false_eq_true, iff_true]
      exact ⟨rfl, rfl⟩

/-- C10 amended, at a concrete node: a node with a bootstrap flag and join
targets, observed for one pass of the join loop. -/
theorem C10_membership_paths_witness :
    ((newEvents emptyWorld (server.SetupRaft (sampleEnv RaftState.Follower 200)
          sampleJoinConfig 1 emptyWorld).2).any Event.isBootstrap = true
        ∧ ((newEvents emptyWorld (server.SetupRaft (sampleEnv RaftState.Follower 200)
              sampleJoinConfig 1 emptyWorld).2).any Event.isJoinPost = true
            ↔ sampleJoinConfig.Peers.length > 0))
      ∧ ((newEvents emptyWorld (main.startMembership (sampleEnv RaftState.Follower 200)
              sampleJoinConfig 1 emptyWorld).2).any Event.isBootstrap
            = sampleJoinConfig.Server.ServerBootstrap
        ∧ ((newEvents emptyWorld (main.startMembership (sampleEnv RaftState.Follower 200)
              sampleJoinConfig 1 emptyWorld).2).any Event.isJoinPost = true
            ↔ sampleJoinConfig.Server.JoinAddress.length > 0))
      ∧ (((newEvents emptyWorld (cmd_api.startMembership (sampleEnv RaftState.Follower 200)
              sampleJoinConfig 1 emptyWorld).2).any Event.isBootstrap = true
            ↔ ¬ sampleJoinConfig.Server.JoinAddress.length > 0)
        ∧ ((newEvents emptyWorld (cmd_api.startMembership (sampleEnv RaftState.Follower 200)
              sampleJoinConfig 1 emptyWorld).2).any Event.isJoinPost = true
            ↔ sampleJoinConfig.Server.JoinAddress.length > 0)) :=
  C10_membership_paths (sampleEnv RaftState.Follower 200) sampleJoinConfig 1 emptyWorld
    (by decide)

/-! ### The Get handler -/

/-- C13 as stated fails: on a closed store the Get handler answers 422 for the
non-blank key "x" although the key is not reported as not found (badger
reports `DB Closed`) and no stored bytes failed to decode. -/
theorem C13_counterexample :
    (store_handler.Get (sampleEnv RaftState.Follower 200) "x" worldClosed).1.status = 422
      ∧ TrimSpace "x" ≠ ""
      ∧ worldClosed.readErr (TrimSpace "x") ≠ ReadError.get "Key not found"
      ∧ worldClosed.db (TrimSpace "x") = none
      ∧ ¬ ((store_handler.Get (sampleEnv RaftState.Follower 200) "x" worldClosed).1.status = 422
            ↔ (TrimSpace "x" = ""
                ∨ (worldClosed.db (TrimSpace "x") = none
                    ∧ worldClosed.readErr (TrimSpace "x") = ReadError.get "Key not found")
                ∨ ∃ b e, worldClosed.db (TrimSpace "x") = some b ∧ b.length > 0
                    ∧ (sampleEnv RaftState.Follower 200).codec.unmarshal b = Except.error e)) := by
  have h1 : (store_handler.Get (sampleEnv RaftState.Follower 200) "x" worldClosed).1.status
      = 422 := rfl
  have h2 : TrimSpace "x" ≠ "" := by decide
  have h3 : worldClosed.readErr (TrimSpace "x") ≠ ReadError.get "Key not found" := by decide
  have h4 : worldClosed.db (TrimSpace "x") = none := rfl
  refine ⟨h1, h2, h3, h4, ?_⟩
  intro h
  rcases h.mp h1 with h | h | ⟨b, e, hb, _⟩
  · exact h2 h
  · exact h3 h.2
  · rw [h4] at hb
    exact absurd hb (by simp)

/-- C13 amended: the Get handler answers 422 exactly when the trimmed key is
empty, the store yields no value for the key (the key is not found, or the
read fails in `txn.Get` or `item.Value` for any other reason), or the stored
bytes are not empty and fail to decode; when the store yields no value the
error names the failing call and carries the store's error; in every other
case it answers 200 with the trimmed key and the decoded value (null for empty
stored bytes).  The answer does not depend on the node's raft state, and the
handler makes no call but the one read of the store. -/
theorem C13_get_outcome (env : Env) (param : String) (w : World) :
    ((store_handler.Get env param w).1.status = 422 ↔
        (TrimSpace param = "" ∨ w.db (TrimSpace param) = none
          ∨ ∃ b e, w.db (TrimSpace param) = some b ∧ b.length > 0
              ∧ env.codec.unmarshal b = Except.error e))
      ∧ (TrimSpace param ≠ "" → w.db (TrimSpace param) = none →
          (store_handler.Get env param w).1
            = { status := 422,
                body := RespBody.errorValue ("error unmarshal data to interface: "
                  ++ (match w.readErr (TrimSpace param) with
                      | ReadError.get msg =>
                        "error getting key " ++ TrimSpace param ++ " from storage: " ++ msg
                      | ReadError.value msg =>
                        "error appending byte value of key " ++ TrimSpace param
                          ++ " from storage: " ++ msg)) })
      ∧ ((store_handler.Get env param w).1.status ≠ 422 →
          ∃ b v, w.db (TrimSpace param) = some b
            ∧ (b.length > 0 → env.codec.unmarshal b = Except.ok v)
            ∧ (¬ b.length > 0 → v = Json.null)
            ∧ (store_handler.Get env param w).1
              = { status := 200,
                  body := RespBody.fetched "success fetching data" (TrimSpace param) v })
      ∧ (∀ st : Nat → RaftState,
          (store_handler.Get { env with stateAt := st } param w).1
            = (store_handler.Get env param w).1)
      ∧ (newEvents w (store_handler.Get env param w).2 = []
          ∨ newEvents w (store_handler.Get env param w).2 = [Event.DbGet (TrimSpace param)]) := by
  have hAbs : TrimSpace param ≠ "" → w.db (TrimSpace param) = none →
      (store_handler.Get env param w).1
        = { status := 422,
            body := RespBody.errorValue ("error unmarshal data to interface: "
              ++ (match w.readErr (TrimSpace param) with
                  | ReadError.get msg =>
                    "error getting key " ++ TrimSpace param ++ " from storage: " ++ msg
                  | ReadError.value msg =>
                    "error appending byte value of key " ++ TrimSpace param
                      ++ " from storage: " ++ msg)) } := by
    intro hK hD
    cases hR : w.readErr (TrimSpace param) with
    | get msg => simp [store_handler.Get, hK, GetData, actualGetData, hD, hR]
    | value msg => simp [store_handler.Get, hK, GetData, actualGetData, hD, hR]
  have hWorld : TrimSpace param ≠ "" →
      (store_handler.Get env param w).2 = w.emit (Event.DbGet (TrimSpace param)) := by
    intro hK
    have hW := actualGetData_world (TrimSpace param) w
    simp only [store_handler.Get, hK, if_false, GetData]
    cases hA : actualGetData (TrimSpace param) w with
    | mk r w1 =>
      rw [hA] at hW
      simp only at hW
      subst hW
      cases r with
      | error e => rfl
      | ok b =>
        by_cases hL : b.length > 0
        · simp only [hL, if_true]
          cases hU : env.codec.unmarshal b <;> rfl
        · simp only [hL, if_false]
  refine ⟨?_, hAbs, ?_, fun st => rfl, ?_⟩
  · by_cases hK : TrimSpace param = ""
    · simp [store_handler.Get, hK]
    · cases hD : w.db (TrimSpace param) with
      | none => simp [hAbs hK hD]
      | some b =>
        by_cases hL : b.length > 0
        · cases hU : env.codec.unmarshal b with
          | error e => simp [store_handler.Get, hK, GetData, actualGetData, hD, hL, hU]
          | ok v => simp [store_handler.Get, hK, GetData, actualGetData, hD, hL, hU]
        · simp [store_handler.Get, hK, GetData, actualGetData, hD, hL]
  · by_cases hK : TrimSpace param = ""
    · simp [store_handler.Get, hK]
    · cases hD : w.db (TrimSpace param) with
      | none => simp [hAbs hK hD]
      | some b =>
        by_cases hL : b.length > 0
        · cases hU : env.codec.unmarshal b with
          | error e => simp [store_handler.Get, hK, GetData, actualGetData, hD, hL, hU]
          | ok v =>
            intro _
            exact ⟨b, v, rfl, fun _ => hU, fun h => absurd hL h,
              by simp [store_handler.Get, hK, GetData, actualGetData, hD, hL, hU]⟩
        · intro _
          exact ⟨b, Json.null, rfl, fun h => absurd h hL, fun _ => rfl,
            by simp [store_handler.Get, hK, GetData, actualGetData, hD, hL]⟩
  · by_cases hK : TrimSpace param = ""
    · left
      simp [store_handler.Get, hK, newEvents]
    · right
      rw [hWorld hK]
      simp [newEvents, World.emit]

/-! ### Reserved keys and the non-leader answer of the Store handler -/

/-- C14 as stated fails: a Store request with the non-blank key "x" handled on
a follower that holds a CurrentLeader record is answered 200 by both revisions
of the handler, after one forward to the leader. -/
theorem C14_follower_store_answers_200 :
    TrimSpace sampleRequest.Key ≠ ""
      ∧ (sampleEnv RaftState.Follower 200).stateAt 1 ≠ RaftState.Leader
      ∧ (store_handler.Store (sampleEnv RaftState.Follower 200) (Except.ok sampleRequest)
          worldWithLeader).1.status = 200
      ∧ newEvents worldWithLeader (store_handler.Store (sampleEnv RaftState.Follower 200)
          (Except.ok sampleRequest) worldWithLeader).2
        = [Event.GetConfiguration, Event.State, Event.DbGet "CurrentLeader",
           Event.HttpPost "http://n1:2221/store" "application/json"
             "\x7b\"key\":\"x\",\"value\":1\x7d"]
      ∧ (store_handler_inline.Store (sampleEnv RaftState.Follower 200)
          (Except.ok sampleRequest) worldWithLeader).1.status = 200
      ∧ newEvents worldWithLeader (store_handler_inline.Store (sampleEnv RaftState.Follower 200)
          (Except.ok sampleRequest) worldWithLeader).2
        = [Event.State, Event.Leader,
           Event.HttpPost "http://n1:2221/store" "application/json"
             "\x7b\"key\":\"x\",\"value\":1\x7d"] := by
  refine ⟨by decide, by decide, rfl, rfl, rfl, rfl⟩

/-- C14 amended: a Store request with a non-blank key handled on a node that is
not leader is not refused but forwarded to the leader with one POST of the
JSON request to the leader's /store.  The inline revision of the handler posts
to the address the substrate names as leader and answers 200 exactly when the
request was delivered, 422 exactly when it could not be delivered.  The
StoreData revision, when the raft configuration is read and the CurrentLeader
record decodes, posts to that record's server address and answers 200 whenever
the request was delivered. -/
theorem C14_follower_store_forwards (env : Env) (form : RequestStore) (w : World)
    (hKey : TrimSpace form.Key ≠ "") :
    (env.stateAt w.trace.length ≠ RaftState.Leader →
        newEvents w (store_handler_inline.Store env (Except.ok form) w).2
            = [Event.State, Event.Leader,
               Event.HttpPost ("http://" ++ env.leaderAt (w.trace.length + 1) ++ "/store")
                 "application/json"
                 (bytesOrNil (env.codec.marshalRequestStore
                   { form with Key := TrimSpace form.Key }))]
          ∧ ((store_handler_inline.Store env (Except.ok form) w).1.status = 200
              ↔ ∃ status, env.httpPost (w.trace.length + 2)
                  ("http://" ++ env.leaderAt (w.trace.length + 1) ++ "/store")
                  (bytesOrNil (env.codec.marshalRequestStore
                    { form with Key := TrimSpace form.Key })) = HttpResult.response status)
          ∧ ((store_handler_inline.Store env (Except.ok form) w).1.status = 422
              ↔ ∃ err, env.httpPost (w.trace.length + 2)
                  ("http://" ++ env.leaderAt (w.trace.length + 1) ++ "/store")
                  (bytesOrNil (env.codec.marshalRequestStore
                    { form with Key := TrimSpace form.Key })) = HttpResult.connError err))
      ∧ (env.configurationErr w.trace.length = none →
          env.stateAt (w.trace.length + 1) ≠ RaftState.Leader →
          ∀ b leader, w.db "CurrentLeader" = some b → b.length > 0 →
            env.codec.unmarshalConfig b = Except.ok leader →
            newEvents w (store_handler.Store env (Except.ok form) w).2
                = [Event.GetConfiguration, Event.State, Event.DbGet "CurrentLeader",
                   Event.HttpPost ("http://" ++ leader.Server.Address ++ "/store")
                     "application/json"
                     (bytesOrNil (env.codec.marshalRequestStore
                       { form with Key := TrimSpace form.Key }))]
              ∧ ((∃ status, env.httpPost (w.trace.length + 3)
                    ("http://" ++ leader.Server.Address ++ "/store")
                    (bytesOrNil (env.codec.marshalRequestStore
                      { form with Key := TrimSpace form.Key })) = HttpResult.response status)
                  → (store_handler.Store env (Except.ok form) w).1.status = 200)) := by
  constructor
  · intro hNot
    have hS : store_handler_inline.Store env (Except.ok form) w
        = (match env.httpPost (w.trace.length + 1 + 1)
              ("http://" ++ env.leaderAt (w.trace.length + 1) ++ "/store")
              (bytesOrNil (env.codec.marshalRequestStore
                { form with Key := TrimSpace form.Key })) with
           | HttpResult.connError err =>
             ({ status := 422, body := RespBody.errorValue err },
              { w with trace := w.trace ++ [Event.State, Event.Leader,
                  Event.HttpPost ("http://" ++ env.leaderAt (w.trace.length + 1) ++ "/store")
                    "application/json"
                    (bytesOrNil (env.codec.marshalRequestStore
                      { form with Key := TrimSpace form.Key }))] })
           | HttpResult.response _ =>
             ({ status := 200,
                body := RespBody.stored "success persisting data"
                  { form with Key := TrimSpace form.Key } },
              { w with trace := w.trace ++ [Event.State, Event.Leader,
                  Event.HttpPost ("http://" ++ env.leaderAt (w.trace.length + 1) ++ "/store")
                    "application/json"
                    (bytesOrNil (env.codec.marshalRequestStore
                      { form with Key := TrimSpace form.Key }))] })) := by
      simp only [store_handler_inline.Store, hKey, if_false, raftState]
      cases hSt : env.stateAt w.trace.length with
      | Leader => exact absurd hSt hNot
      | Follower =>
        simp only [raftLeader, httpPost, World.emit, List.length_append, List.length_singleton]
        cases env.httpPost (w.trace.length + 1 + 1)
          ("http://" ++ env.leaderAt (w.trace.length + 1) ++ "/store")
          (bytesOrNil (env.codec.marshalRequestStore
            { form with Key := TrimSpace form.Key })) <;> simp
      | Candidate =>
        simp only [raftLeader, httpPost, World.emit, List.length_append, List.length_singleton]
        cases env.httpPost (w.trace.length + 1 + 1)
          ("http://" ++ env.leaderAt (w.trace.length + 1) ++ "/store")
          (bytesOrNil (env.codec.marshalRequestStore
            { form with Key := TrimSpace form.Key })) <;> simp
      | Shutdown =>
        simp only [raftLeader, httpPost, World.emit, List.length_append, List.length_singleton]
        cases env.httpPost (w.trace.length + 1 + 1)
          ("http://" ++ env.leaderAt (w.trace.length + 1) ++ "/store")
          (bytesOrNil (env.codec.marshalRequestStore
            { form with Key := TrimSpace form.Key })) <;> simp
    rw [hS]
    cases hP : env.httpPost (w.trace.length + 1 + 1)
      ("http://" ++ env.leaderAt (w.trace.length + 1) ++ "/store")
      (bytesOrNil (env.codec.marshalRequestStore
        { form with Key := TrimSpace form.Key })) with
    | connError err => simp [newEvents, hP]
    | response status => simp [newEvents, hP]
  · intro hConf hNot b leader hRec hLen hDec
    have hNot2 : env.stateAt (w.emit Event.GetConfiguration).trace.length
        ≠ RaftState.Leader := by simpa [World.emit] using hNot
    have hSD := StoreData_not_leader env { form with Key := TrimSpace form.Key }
      (w.emit Event.GetConfiguration) hNot2
    have hPL := passToLeaderAndStore_of_record env { form with Key := TrimSpace form.Key }
      ((w.emit Event.GetConfiguration).emit Event.State) b leader
      (by simpa [World.emit] using hRec) hLen hDec
    simp only [store_handler.Store, hKey, if_false, raftGetConfiguration, hConf, hSD, hPL]
    simp [newEvents, World.emit]

/-- C14 amended, at a concrete request: key "x" on a follower whose leader
`n1:2221` answers 200. -/
theorem C14_follower_store_forwards_witness :
    newEvents worldWithLeader (store_handler_inline.Store (sampleEnv RaftState.Follower 200)
        (Except.ok sampleRequest) worldWithLeader).2
        = [Event.State, Event.Leader,
           Event.HttpPost "http://n1:2221/store" "application/json"
             "\x7b\"key\":\"x\",\"value\":1\x7d"]
      ∧ (store_handler_inline.Store (sampleEnv RaftState.Follower 200)
          (Except.ok sampleRequest) worldWithLeader).1.status = 200
      ∧ newEvents worldWithLeader (store_handler.Store (sampleEnv RaftState.Follower 200)
          (Except.ok sampleRequest) worldWithLeader).2
        = [Event.GetConfiguration, Event.State, Event.DbGet "CurrentLeader",
           Event.HttpPost "http://n1:2221/store" "application/json"
             "\x7b\"key\":\"x\",\"value\":1\x7d"]
      ∧ (store_handler.Store (sampleEnv RaftState.Follower 200)
          (Except.ok sampleRequest) worldWithLeader).1.status = 200 :=
  have h := C14_follower_store_forwards (sampleEnv RaftState.Follower 200) sampleRequest
    worldWithLeader (by decide)
  have h1 := h.1 (by decide)
  have h2 := h.2 rfl (by decide) (sampleMarshalConfig sampleConfig) sampleConfig rfl
    (by decide) rfl
  ⟨h1.1, h1.2.1.mpr ⟨200, rfl⟩, h2.1, h2.2 ⟨200, rfl⟩⟩

/-- C15, the code at the failing input: with two peers of which the first
answers 500, the first join request carries the join payload and the second is
sent with an empty body, the one buffer having been read by the first. -/
theorem C15_second_join_body_empty :
    joinBody (sampleEnv RaftState.Follower 500) sampleTwoPeerConfig
        = "\x7b\"nodeId\":\"n2\",\"raftAddress\":\"n2:1112\"\x7d"
      ∧ (sampleEnv RaftState.Follower 500).httpPost 0 "http://n1:2221/raft/join"
          "\x7b\"nodeId\":\"n2\",\"raftAddress\":\"n2:1112\"\x7d" = HttpResult.response 500
      ∧ newEvents emptyWorld
          (server.RetryJoin (sampleEnv RaftState.Follower 500) sampleTwoPeerConfig emptyWorld).2
        = [Event.HttpPost "http://n1:2221/raft/join" "application/json"
             "\x7b\"nodeId\":\"n2\",\"raftAddress\":\"n2:1112\"\x7d",
           Event.HttpPost "http://n3:2223/raft/join" "application/json" ""] := by
  refine ⟨rfl, rfl, rfl⟩

/-- A string that starts with a character that is not white space does not
trim to the empty string. -/
theorem TrimSpace_ne_empty_of_head (s : String) (c : Char) (rest : List Char)
    (hs : s.data = c :: rest) (hc : isSpace c = false) : TrimSpace s ≠ "" := by
  intro h
  have h1 : (TrimSpace s).data = [] := by rw [h]
  simp only [TrimSpace, hs, List.dropWhile_cons, hc, List.reverse_eq_nil_iff] at h1
  rw [List.dropWhile_eq_nil_iff] at h1
  have h2 := h1 c (by simp)
  rw [hc] at h2
  exact absurd h2 (by decide)

/-- C16: a client Store request whose key is the reserved key "CurrentLeader",
or "member_" followed by a node id, passes the handler's validation, and on a
leader it is submitted as one Apply of the SET Command over the trimmed key and
the client's value, as for any key.  With this repository's state machine in
the substrate, the store then holds the client's encoded value under that key,
which for "CurrentLeader" is the record GetNodeData reads for forwarding. -/
theorem C16_reserved_keys_unguarded (env : Env) (v : GoValue) (nodeId k : String) (w : World)
    (p : Bytes)
    (hk : k = "CurrentLeader" ∨ k = "member_" ++ nodeId)
    (hConf : env.configurationErr w.trace.length = none)
    (hLeader : env.stateAt (w.trace.length + 1) = RaftState.Leader)
    (hEnc : env.codec.marshalCommand { Operation := "SET", Key := TrimSpace k, Value := v }
      = Except.ok p) :
    TrimSpace k ≠ ""
      ∧ TrimSpace "CurrentLeader" = "CurrentLeader"
      ∧ newEvents w (store_handler.Store env (Except.ok { Key := k, Value := v }) w).2
        = [Event.GetConfiguration, Event.State, Event.Apply p 500]
      ∧ (env.applyErr (w.trace.length + 2) p = none → env.fsm = fsmApply env.codec →
          env.codec.unmarshalCommand p
            = Except.ok { Operation := "SET", Key := TrimSpace k, Value := v } →
          ∀ b, env.codec.marshal v = Except.ok b →
            (store_handler.Store env (Except.ok { Key := k, Value := v }) w).1.status = 200
              ∧ (store_handler.Store env (Except.ok { Key := k, Value := v }) w).2.db
                  (TrimSpace k) = some b
              ∧ (actualGetData (TrimSpace k)
                  (store_handler.Store env (Except.ok { Key := k, Value := v }) w).2).1
                = Except.ok b) := by
  have hKey : TrimSpace k ≠ "" := by
    rcases hk with h | h
    · rw [h]; decide
    · rw [h]
      exact TrimSpace_ne_empty_of_head ("member_" ++ nodeId) 'm'
        (['e', 'm', 'b', 'e', 'r', '_'] ++ nodeId.data)
        (by rw [String.data_append]; rfl) (by decide)
  have hS := StoreData_leader env { Key := TrimSpace k, Value := v }
    (w.emit Event.GetConfiguration) p (by simpa [World.emit] using hLeader) hEnc
  have hA2 : (w.emit Event.GetConfiguration).trace.length + 1 = w.trace.length + 2 := by
    simp [World.emit]
  rw [hA2] at hS
  refine ⟨hKey, by decide, ?_, ?_⟩
  · simp only [store_handler.Store, hKey, if_false, raftGetConfiguration, hConf, hS]
    cases env.applyErr (w.trace.length + 2) p with
    | some err => simp [newEvents, World.emit]
    | none =>
      cases (env.fsm p (w.emit Event.GetConfiguration).db).2 <;> simp [newEvents, World.emit]
  · intro hApply hFsm hDec b hVal
    simp only [store_handler.Store, hKey, if_false, raftGetConfiguration, hConf, hS, hApply,
      hFsm, fsmApply, hDec, if_true, hVal]
    simp [actualGetData, Store.put, hKey]

/-- C16 at a concrete request: a client stores the number 1 under
"CurrentLeader" on a leader that held a leader record. -/
theorem C16_reserved_keys_unguarded_witness :
    newEvents worldWithLeader
        (store_handler.Store (sampleEnvFsm RaftState.Leader 200)
          (Except.ok { Key := "CurrentLeader", Value := GoValue.json (Json.num 1) })
          worldWithLeader).2
        = [Event.GetConfiguration, Event.State,
           Event.Apply "\x7b\"Operation\":\"SET\",\"Key\":\"CurrentLeader\",\"Value\":1\x7d" 500]
      ∧ (store_handler.Store (sampleEnvFsm RaftState.Leader 200)
          (Except.ok { Key := "CurrentLeader", Value := GoValue.json (Json.num 1) })
          worldWithLeader).1.status = 200
      ∧ (store_handler.Store (sampleEnvFsm RaftState.Leader 200)
          (Except.ok { Key := "CurrentLeader", Value := GoValue.json (Json.num 1) })
          worldWithLeader).2.db "CurrentLeader" = some "1" :=
  have h := C16_reserved_keys_unguarded (sampleEnvFsm RaftState.Leader 200)
    (GoValue.json (Json.num 1)) "n1" "CurrentLeader" worldWithLeader
    "\x7b\"Operation\":\"SET\",\"Key\":\"CurrentLeader\",\"Value\":1\x7d"
    (Or.inl rfl) rfl rfl rfl
  ⟨h.2.2.1, (h.2.2.2 rfl rfl rfl "1" rfl).1, (h.2.2.2 rfl rfl rfl "1" rfl).2.1⟩

/-! ### One pass of join requests over the peers -/

/-- The answers to a trace that starts with the call `e`. -/
theorem answers_cons (env : Env) (t : Nat) (e : Event) (es : List Event) :
    answers env t (e :: es)
      = (match e with
         | Event.HttpPost url _ body => some (env.httpPost t url body)
         | Event.HttpGet url => some (env.httpGet t url)
         | _ => none) :: answers env (t + 1) es := rfl

/-- One pass over the peers, described on its trace: the requests go to the
peers in list order, the pass succeeds exactly when an answer was 200, an
answer of 200 is the last answer of the pass, and a pass that fails has tried
every peer. -/
theorem RetryJoinPeers_spec (env : Env) (peers : List String) :
    ∀ (buf : Bytes) (w : World),
      ∃ evs, (server.RetryJoinPeers env peers buf w).2.trace = w.trace ++ evs
        ∧ evs.all Event.isJoinPost = true
        ∧ evs.length ≤ peers.length
        ∧ evs.map Event.postUrl
            = (peers.take evs.length).map (fun peer => some (peer ++ "/raft/join"))
        ∧ ((server.RetryJoinPeers env peers buf w).1 = none
            ↔ some (HttpResult.response 200) ∈ answers env w.trace.length evs)
        ∧ (∀ pre post, answers env w.trace.length evs
              = pre ++ some (HttpResult.response 200) :: post → post = [])
        ∧ ((server.RetryJoinPeers env peers buf w).1 ≠ none → evs.length = peers.length) := by
  induction peers with
  | nil =>
    intro buf w
    refine ⟨[], by simp [server.RetryJoinPeers], by simp, by simp, by simp, ?_, ?_, by simp⟩
    · simp [server.RetryJoinPeers, answers]
    · intro pre post h
      simp [answers] at h
  | cons peer rest ih =>
    intro buf w
    have hj := isJoinPost_join peer "application/json" buf
    have hLen : (w.emit (Event.HttpPost (peer ++ "/raft/join") "application/json" buf)).trace.length
        = w.trace.length + 1 := by simp [World.emit]
    simp only [server.RetryJoinPeers, httpPost]
    cases hP : env.httpPost w.trace.length (peer ++ "/raft/join") buf with
    | connError err =>
      obtain ⟨evs, hT, hA, hL, hU, hR, hF, hN⟩ :=
        ih (if env.postBodyRead w.trace.length then "" else buf)
          (w.emit (Event.HttpPost (peer ++ "/raft/join") "application/json" buf))
      rw [hLen] at hR hF
      refine ⟨Event.HttpPost (peer ++ "/raft/join") "application/json" buf :: evs,
        ?_, ?_, ?_, ?_, ?_, ?_, ?_⟩
      · simp only [hT]; simp [World.emit]
      · simp [hj, hA]
      · simp only [List.length_cons]; omega
      · simp [Event.postUrl, hU]
      · simp only [answers_cons, hP, hR]; simp
      · intro pre post h
        simp only [answers_cons, hP] at h
        cases pre with
        | nil => simp at h
        | cons x pre2 =>
          simp only [List.cons_append, List.cons.injEq] at h
          exact hF pre2 post h.2
      · intro hne
        simp only [List.length_cons]
        rw [hN hne]
    | response status =>
      by_cases h200 : status = 200
      · refine ⟨[Event.HttpPost (peer ++ "/raft/join") "application/json" buf],
          ?_, ?_, ?_, ?_, ?_, ?_, ?_⟩
        · simp [h200, World.emit]
        · simp [hj]
        · simp
        · simp [Event.postUrl]
        · simp [h200, answers, hP]
        · intro pre post h
          simp only [answers_cons, answers] at h
          cases pre with
          | nil => simp at h; exact h.2
          | cons x pre2 => simp at h
        · simp [h200]
      · obtain ⟨evs, hT, hA, hL, hU, hR, hF, hN⟩ :=
          ih "" (w.emit (Event.HttpPost (peer ++ "/raft/join") "application/json" buf))
        rw [hLen] at hR hF
        refine ⟨Event.HttpPost (peer ++ "/raft/join") "application/json" buf :: evs,
          ?_, ?_, ?_, ?_, ?_, ?_, ?_⟩
        · simp only [h200, if_false, hT]; simp [World.emit]
        · simp [hj, hA]
        · simp only [List.length_cons]; omega
        · simp [Event.postUrl, hU]
        · simp only [h200, if_false, answers_cons, hP, hR]
          simp only [List.mem_cons, Option.some.injEq, HttpResult.response.injEq]
          constructor
          · intro h; exact Or.inr h
          · intro h
            rcases h with h | h
            · exact absurd h.symm h200
            · exact h
        · intro pre post h
          simp only [answers_cons, hP] at h
          cases pre with
          | nil => simp [h200] at h
          | cons x pre2 =>
            simp only [List.cons_append, List.cons.injEq] at h
            exact hF pre2 post h.2
        · intro hne
          simp only [h200, if_false] at hne
          simp only [List.length_cons]
          rw [hN hne]

/-- C11: one call of RetryJoin, described on its new calls and the answers they
got.  The requests go to the peers in list order, one per peer, to
<peer>/raft/join; RetryJoin returns nil exactly when some answer was HTTP 200;
an answer of 200 is the last one, so no later peer is contacted; and when it
returns an error every peer of the list was tried, so a connection error or a
non-200 answer did not stop the pass. -/
theorem C11_retry_join_pass (env : Env) (conf : Config) (w : World) :
    (newEvents w (server.RetryJoin env conf w).2).length ≤ conf.Peers.length
      ∧ (newEvents w (server.RetryJoin env conf w).2).map Event.postUrl
          = (conf.Peers.take (newEvents w (server.RetryJoin env conf w).2).length).map
              (fun peer => some (peer ++ "/raft/join"))
      ∧ ((server.RetryJoin env conf w).1 = none
          ↔ some (HttpResult.response 200)
              ∈ answers env w.trace.length (newEvents w (server.RetryJoin env conf w).2))
      ∧ (∀ pre post, answers env w.trace.length (newEvents w (server.RetryJoin env conf w).2)
            = pre ++ some (HttpResult.response 200) :: post → post = [])
      ∧ ((server.RetryJoin env conf w).1 ≠ none →
          (newEvents w (server.RetryJoin env conf w).2).length = conf.Peers.length) := by
  obtain ⟨evs, hT, _, hL, hU, hR, hF, hN⟩ :=
    RetryJoinPeers_spec env conf.Peers (joinBody env conf) w
  have hE : newEvents w (server.RetryJoin env conf w).2 = evs :=
    newEvents_of_trace w _ evs hT
  rw [hE]
  exact ⟨hL, hU, hR, hF, hN⟩

/-! ### The join-retry loops -/

/-- The answers to a trace made of two parts. -/
theorem answers_append (env : Env) (l1 l2 : List Event) :
    ∀ t, answers env t (l1 ++ l2) = answers env t l1 ++ answers env (t + l1.length) l2 := by
  induction l1 with
  | nil => intro t; simp [answers]
  | cons e es ih =>
    intro t
    simp only [List.cons_append, answers_cons, ih (t + 1), List.length_cons]
    have : t + 1 + es.length = t + (es.length + 1) := by omega
    rw [this]

/-- Join requests are not pauses. -/
theorem countP_isSleep_of_all_join (evs : List Event)
    (h : evs.all Event.isJoinPost = true) : evs.countP Event.isSleep = 0 := by
  rw [List.countP_eq_zero]
  intro e he
  have hj := List.all_eq_true.mp h e he
  cases e <;> simp_all [Event.isJoinPost, Event.isSleep]

/-- Once the join goroutine has left its loop, its steps change nothing. -/
theorem run_joinAlone_done (env : Env) (conf : Config) (passes : Nat) :
    ∀ p : server.Proc, p.join = server.JoinPc.done →
      server.run env conf (server.joinAlone passes) p = p := by
  induction passes with
  | zero => intro p _; rfl
  | succ n ih =>
    intro p hD
    have hS : server.step env conf Goroutine.join p = p := by
      unfold server.step
      cases p.exited with
      | some msg => rfl
      | none => simp [server.stepJoin, hD]
    simp only [server.joinAlone, server.run, hS]
    exact ih p hD

/-- The join goroutine of `SetupRaft` run for `passes` passes with no other
goroutine stepping in between, described on its trace: the process does not
exit, the goroutine has left its loop exactly when an answer was 200, and
while it has not, it stands before its next pass and has paused after every
pass. -/
theorem joinAlone_spec (env : Env) (conf : Config) (passes : Nat) :
    ∀ (w : World) (err0 : Option String) (l : server.ListenPc),
      ∃ evs,
        (server.run env conf (server.joinAlone passes)
            { world := w, err := err0, join := server.JoinPc.pass, listener := l,
              exited := none }).world.trace = w.trace ++ evs
        ∧ (server.run env conf (server.joinAlone passes)
            { world := w, err := err0, join := server.JoinPc.pass, listener := l,
              exited := none }).exited = none
        ∧ ((server.run env conf (server.joinAlone passes)
              { world := w, err := err0, join := server.JoinPc.pass, listener := l,
                exited := none }).join = server.JoinPc.done
            ↔ some (HttpResult.response 200) ∈ answers env w.trace.length evs)
        ∧ ((server.run env conf (server.joinAlone passes)
              { world := w, err := err0, join := server.JoinPc.pass, listener := l,
                exited := none }).join ≠ server.JoinPc.done →
            (server.run env conf (server.joinAlone passes)
              { world := w, err := err0, join := server.JoinPc.pass, listener := l,
                exited := none }).join = server.JoinPc.pass
              ∧ evs.countP Event.isSleep = passes) := by
  induction passes with
  | zero =>
    intro w err0 l
    exact ⟨[], by simp [server.joinAlone, server.run], by simp [server.joinAlone, server.run],
      by simp [server.joinAlone, server.run, answers],
      by simp [server.joinAlone, server.run]⟩
  | succ n ih =>
    intro w err0 l
    obtain ⟨evs1, hT1, hA1, _, _, hR1, _, _⟩ :=
      RetryJoinPeers_spec env conf.Peers (joinBody env conf) w
    simp only [server.joinAlone, server.run, server.step, server.stepJoin, server.RetryJoin]
    cases hR : server.RetryJoinPeers env conf.Peers (joinBody env conf) w with
    | mk r w1 =>
      rw [hR] at hT1 hR1
      simp only at hT1 hR1
      cases r with
      | none =>
        simp only
        rw [run_joinAlone_done env conf n _ rfl]
        refine ⟨evs1, hT1, rfl, ?_, by simp⟩
        simp only [true_iff]
        exact hR1.mp rfl
      | some msg =>
        simp only
        have hNo : some (HttpResult.response 200) ∉ answers env w.trace.length evs1 := by
          intro h
          have := hR1.mpr h
          simp at this
        have hLen : (w1.emit (Event.Sleep 2000)).trace.length
            = w.trace.length + evs1.length + 1 := by
          simp only [World.emit, hT1, List.length_append, List.length_singleton]
        obtain ⟨evs2, hT2, hX2, hJ2, hS2⟩ := ih (w1.emit (Event.Sleep 2000)) (some msg) l
        rw [hLen] at hJ2
        refine ⟨evs1 ++ Event.Sleep 2000 :: evs2, ?_, hX2, ?_, ?_⟩
        · simp only [hT2]; simp [World.emit, hT1]
        · rw [hJ2, answers_append, answers_cons]
          simp only [List.mem_append, List.mem_cons]
          constructor
          · intro h; exact Or.inr (Or.inr h)
          · intro h
            rcases h with h | h | h
            · exact absurd h hNo
            · simp at h
            · exact h
        · intro hNot
          refine ⟨(hS2 hNot).1, ?_⟩
          rw [List.countP_append, List.countP_cons, countP_isSleep_of_all_join evs1 hA1,
            (hS2 hNot).2]
          simp [Event.isSleep]

/-- The join loop of `main`, described on its trace: it has joined exactly when
an answer was 200, it has ended the process exactly when a request could not
be delivered, and while it is still retrying every observed attempt was
followed by a pause. -/
theorem main_joinLoop_spec (env : Env) (conf : Config) (fuel : Nat) :
    ∀ w : World, ∃ evs, (main.joinLoop env conf fuel w).2.trace = w.trace ++ evs
      ∧ ((main.joinLoop env conf fuel w).1 = JoinResult.joined
          ↔ some (HttpResult.response 200) ∈ answers env w.trace.length evs)
      ∧ (∀ msg, (main.joinLoop env conf fuel w).1 = JoinResult.fatal msg
          ↔ some (HttpResult.connError msg) ∈ answers env w.trace.length evs)
      ∧ ((main.joinLoop env conf fuel w).1 = JoinResult.retrying →
          evs.countP Event.isSleep = fuel) := by
  induction fuel with
  | zero =>
    intro w
    exact ⟨[], by simp [main.joinLoop], by simp [main.joinLoop, answers],
      by simp [main.joinLoop, answers], by simp⟩
  | succ n ih =>
    intro w
    simp only [main.joinLoop, main.retryJoin, httpPost]
    cases hP : env.httpPost w.trace.length (conf.Server.JoinAddress ++ "/raft/join")
        (joinBody env conf) with
    | connError err =>
      refine ⟨[Event.HttpPost (conf.Server.JoinAddress ++ "/raft/join") "application/json"
        (joinBody env conf)], by simp [World.emit], ?_, ?_, by simp⟩
      · simp [answers, hP]
      · intro msg
        simp only [answers, hP, List.mem_singleton, Option.some.injEq,
          HttpResult.connError.injEq, JoinResult.fatal.injEq]
        exact eq_comm
    | response status =>
      by_cases h200 : status = 200
      · refine ⟨[Event.HttpPost (conf.Server.JoinAddress ++ "/raft/join") "application/json"
          (joinBody env conf), Event.Sleep 4000], by simp [h200, World.emit], ?_, ?_,
          by simp [h200]⟩
        · simp [h200, answers, hP]
        · intro msg
          simp [h200, answers, hP]
      · have hLen : ((w.emit (Event.HttpPost (conf.Server.JoinAddress ++ "/raft/join")
            "application/json" (joinBody env conf))).emit (Event.Sleep 4000)).trace.length
            = w.trace.length + 1 + 1 := by simp [World.emit]
        obtain ⟨evs2, hT2, hJ2, hF2, hS2⟩ := ih ((w.emit (Event.HttpPost
          (conf.Server.JoinAddress ++ "/raft/join") "application/json"
          (joinBody env conf))).emit (Event.Sleep 4000))
        rw [hLen] at hJ2 hF2
        refine ⟨Event.HttpPost (conf.Server.JoinAddress ++ "/raft/join") "application/json"
          (joinBody env conf) :: Event.Sleep 4000 :: evs2, ?_, ?_, ?_, ?_⟩
        · simp only [h200, if_false, hT2]; simp [World.emit]
        · simp only [h200, if_false, hJ2, answers_cons, hP, List.mem_cons, Option.some.injEq,
            HttpResult.response.injEq]
          constructor
          · intro h; exact Or.inr (Or.inr h)
          · intro h
            rcases h with h | h | h
            · exact absurd h.symm h200
            · simp at h
            · exact h
        · intro msg
          simp only [h200, if_false, hF2 msg, answers_cons, hP, List.mem_cons]
          constructor
          · intro h; exact Or.inr (Or.inr h)
          · intro h
            rcases h with h | h | h
            · simp at h
            · simp at h
            · exact h
        · intro hRetry
          simp only [h200, if_false] at hRetry
          simp [List.countP_cons, Event.isSleep, hS2 hRetry]

/-- C12 as stated fails for the loop of `main`: a join request that cannot be
delivered ends the process (`log.Fatal`), although no attempt was answered 200
and further passes were still to be observed. -/
theorem C12_counterexample :
    (main.joinLoop (sampleEnvDown RaftState.Follower) sampleJoinConfig 3 emptyWorld).1
        = JoinResult.fatal "connection refused"
      ∧ newEvents emptyWorld
          (main.joinLoop (sampleEnvDown RaftState.Follower) sampleJoinConfig 3 emptyWorld).2
        = [Event.HttpPost "http://n1:2221/raft/join" "application/json"
             "\x7b\"nodeId\":\"n2\",\"raftAddress\":\"n2:1112\"\x7d"]
      ∧ answers (sampleEnvDown RaftState.Follower) 0
          (newEvents emptyWorld
            (main.joinLoop (sampleEnvDown RaftState.Follower) sampleJoinConfig 3 emptyWorld).2)
        = [some (HttpResult.connError "connection refused")] := by
  refine ⟨rfl, rfl, rfl⟩

/-- The package-level `err` of `src/server/raft.go` is shared by the two
goroutines, so their interleaving matters.  When the listener stores between a
failed pass and its test, the join goroutine reads the listener's nil and
leaves its loop though no answer was 200; when a failed pass falls between the
listener's store and its test, the listener ends the process with the error of
the join pass. -/
theorem server_join_shares_err :
    (server.run (sampleEnv RaftState.Leader 500) sampleJoinConfig
        [Goroutine.join, Goroutine.listener, Goroutine.join]
        (server.started sampleJoinConfig emptyWorld)).join = server.JoinPc.done
      ∧ answers (sampleEnv RaftState.Leader 500) 0
          (newEvents emptyWorld (server.run (sampleEnv RaftState.Leader 500) sampleJoinConfig
            [Goroutine.join, Goroutine.listener, Goroutine.join]
            (server.started sampleJoinConfig emptyWorld)).world)
        = [some (HttpResult.response 500), none, none, none]
      ∧ (server.run (sampleEnv RaftState.Leader 500) sampleJoinConfig
          [Goroutine.listener, Goroutine.join, Goroutine.listener]
          (server.started sampleJoinConfig emptyWorld)).exited = some "an error" := by
  refine ⟨rfl, rfl, rfl⟩

/-- The deferred `Close` of `setupBadgerDB` at work: on a node that has become
leader, the listener, once scheduled, stores `CurrentLeader`, fails to read it
back from the closed store and ends the process; the join loop, whose one
request was answered 500, takes no further pass. -/
theorem SetupRaft_closed_store_exits :
    (server.SetupRaft (sampleEnvListening RaftState.Leader 500) sampleJoinConfig 30
        emptyWorld).1
        = some (JoinResult.fatal
            "error unmarshal data to interface: error getting key CurrentLeader from storage: DB Closed")
      ∧ ((server.SetupRaft (sampleEnvListening RaftState.Leader 500) sampleJoinConfig 30
            emptyWorld).2.trace.filter Event.isJoinPost).length = 1
      ∧ ((server.SetupRaft (sampleEnvListening RaftState.Leader 500) sampleJoinConfig 30
            emptyWorld).2.trace.filter Event.isSleep).length = 0 := by
  refine ⟨rfl, rfl, rfl⟩

/-- C12 amended: in `SetupRaft`, as long as no other goroutine steps between
the passes of the join goroutine (the leadership listener shares the
package-level `err` and can end the process), the join loop does not end the
process, has ended exactly when a join request was answered 200, and a failed
pass is followed by a 2 s pause and another pass; under every schedule no step
of the join goroutine itself ends the process.  The loop of `main` over
retryJoin has ended with the node joined exactly when a request was answered
200, a non-200 answer is followed by a 4 s pause and another attempt, and the
process is ended exactly when a request could not be delivered.  A loop still
retrying after `fuel` passes has paused `fuel` times. -/
theorem C12_join_loops (env : Env) (conf : Config) (fuel : Nat) (w : World)
    (err0 : Option String) (l : server.ListenPc) :
    ((server.run env conf (server.joinAlone fuel)
          { world := w, err := err0, join := server.JoinPc.pass, listener := l,
            exited := none }).exited = none
        ∧ ((server.run env conf (server.joinAlone fuel)
              { world := w, err := err0, join := server.JoinPc.pass, listener := l,
                exited := none }).join = server.JoinPc.done
            ↔ some (HttpResult.response 200)
                ∈ answers env w.trace.length (newEvents w
                    (server.run env conf (server.joinAlone fuel)
                      { world := w, err := err0, join := server.JoinPc.pass, listener := l,
                        exited := none }).world))
        ∧ ((server.run env conf (server.joinAlone fuel)
              { world := w, err := err0, join := server.JoinPc.pass, listener := l,
                exited := none }).join ≠ server.JoinPc.done →
            (server.run env conf (server.joinAlone fuel)
              { world := w, err := err0, join := server.JoinPc.pass, listener := l,
                exited := none }).join = server.JoinPc.pass
              ∧ (newEvents w (server.run env conf (server.joinAlone fuel)
                  { world := w, err := err0, join := server.JoinPc.pass, listener := l,
                    exited := none }).world).countP Event.isSleep = fuel)
        ∧ ((server.RetryJoin env conf w).1 ≠ none →
            server.run env conf [Goroutine.join, Goroutine.join]
                { world := w, err := err0, join := server.JoinPc.pass, listener := l,
                  exited := none }
              = { world := (server.RetryJoin env conf w).2.emit (Event.Sleep 2000),
                  err := (server.RetryJoin env conf w).1, join := server.JoinPc.pass,
                  listener := l, exited := none })
        ∧ (∀ p : server.Proc, (server.stepJoin env conf p).exited = p.exited))
      ∧ (((main.joinLoop env conf fuel w).1 = JoinResult.joined
            ↔ some (HttpResult.response 200)
                ∈ answers env w.trace.length (newEvents w (main.joinLoop env conf fuel w).2))
        ∧ (∀ msg, (main.joinLoop env conf fuel w).1 = JoinResult.fatal msg
            ↔ some (HttpResult.connError msg)
                ∈ answers env w.trace.length (newEvents w (main.joinLoop env conf fuel w).2))
        ∧ ((main.joinLoop env conf fuel w).1 = JoinResult.retrying →
            (newEvents w (main.joinLoop env conf fuel w).2).countP Event.isSleep = fuel)
        ∧ (∀ status, env.httpPost w.trace.length (conf.Server.JoinAddress ++ "/raft/join")
              (joinBody env conf) = HttpResult.response status → status ≠ 200 →
            main.joinLoop env conf (fuel + 1) w
              = main.joinLoop env conf fuel
                  ((w.emit (Event.HttpPost (conf.Server.JoinAddress ++ "/raft/join")
                    "application/json" (joinBody env conf))).emit (Event.Sleep 4000)))) := by
  obtain ⟨evsS, hTS, hXS, hJS, hSS⟩ := joinAlone_spec env conf fuel w err0 l
  obtain ⟨evsM, hTM, hJM, hFM, hSM⟩ := main_joinLoop_spec env conf fuel w
  rw [newEvents_of_trace w _ evsS hTS, newEvents_of_trace w _ evsM hTM]
  refine ⟨⟨hXS, hJS, hSS, ?_, ?_⟩, ⟨hJM, hFM, hSM, ?_⟩⟩
  · intro hne
    simp only [server.run, server.step, server.stepJoin]
    cases hR : (server.RetryJoin env conf w).1 with
    | none => exact absurd hR hne
    | some msg => rfl
  · intro p
    obtain ⟨pw, pe, pj, pl, px⟩ := p
    cases pj with
    | notStarted => rfl
    | pass => rfl
    | done => rfl
    | test => cases pe <;> rfl
  · intro status hP h200
    simp only [main.joinLoop, main.retryJoin, httpPost, hP, h200, if_false]

/-! ### SplitAddress -/

/-- A text without a newline is one line. -/
theorem splitLines_of_no_newline (l : List Char) (h : '\n' ∉ l) : splitLines l = [l] := by
  induction l with
  | nil => rfl
  | cons c cs ih =>
    have hc : c ≠ '\n' := fun e => h (by simp [e])
    have hcs : '\n' ∉ cs := fun e => h (List.mem_cons_of_mem c e)
    simp [splitLines, hc, ih hcs]

/-- A line of the form host, colon, port matches, with those two groups. -/
theorem matchHostPort_of_form (host port : List Char)
    (hh : host ≠ []) (hhost : ∀ c ∈ host, isHostChar c = true)
    (hp : port ≠ []) (hport : ∀ c ∈ port, isDigitChar c = true) :
    matchHostPort (host ++ ':' :: port) = some (host, port) := by
  have hcolon : isHostChar ':' = false := by decide
  have hT : (host ++ ':' :: port).takeWhile isHostChar = host := by
    rw [List.takeWhile_append_of_pos hhost]
    simp [List.takeWhile_cons, hcolon]
  have hD : (host ++ ':' :: port).dropWhile isHostChar = ':' :: port := by
    rw [List.dropWhile_append_of_pos hhost]
    simp [List.dropWhile_cons, hcolon]
  have hAll : port.all isDigitChar = true := List.all_eq_true.mpr hport
  simp only [matchHostPort, hD, hT]
  simp [hh, hp, hAll]

/-- A line that matches has the form host, colon, port. -/
theorem form_of_matchHostPort (line host port : List Char)
    (h : matchHostPort line = some (host, port)) :
    line = host ++ ':' :: port ∧ host ≠ [] ∧ (∀ c ∈ host, isHostChar c = true)
      ∧ port ≠ [] ∧ (∀ c ∈ port, isDigitChar c = true) := by
  have hSplit := List.takeWhile_append_dropWhile isHostChar line
  unfold matchHostPort at h
  split at h
  · rename_i port2 hD
    split at h
    · rename_i hc
      simp only [Option.some.injEq, Prod.mk.injEq] at h
      obtain ⟨h1, h2⟩ := h
      subst h2
      rw [hD, h1] at hSplit
      refine ⟨hSplit.symm, ?_, ?_, hc.2.1, List.all_eq_true.mp hc.2.2⟩
      · rw [← h1]; exact hc.1
      · intro c hc2
        rw [← h1] at hc2
        exact (List.mem_takeWhile_imp hc2)
    · exact absurd h (by simp)
  · exact absurd h (by simp)

/-- C17: for an address without a newline, if it is host, colon, port with a
non-empty host of ASCII letters, digits, `_`, `-` and `.` and a non-empty port
of ASCII decimal digits, SplitAddress returns exactly that host and port, which
reassemble the address; if it is not of this form, both components returned
are the unchanged address.  SplitAddress is total: it signals no error. -/
theorem C17_split_address (address : String) (hnl : '\n' ∉ address.data) :
    (∀ host port : String, address = host ++ ":" ++ port →
        host ≠ "" → (∀ c ∈ host.data, isHostChar c = true) →
        port ≠ "" → (∀ c ∈ port.data, isDigitChar c = true) →
        SplitAddress address = (host, port)
          ∧ (SplitAddress address).1 ++ ":" ++ (SplitAddress address).2 = address)
      ∧ ((¬ ∃ host port : String, address = host ++ ":" ++ port
            ∧ host ≠ "" ∧ (∀ c ∈ host.data, isHostChar c = true)
            ∧ port ≠ "" ∧ (∀ c ∈ port.data, isDigitChar c = true)) →
          SplitAddress address = (address, address)) := by
  have hLines := splitLines_of_no_newline address.data hnl
  constructor
  · intro host port hEq hh hhost hp hport
    have hData : address.data = host.data ++ ':' :: port.data := by
      rw [hEq]; simp [String.data_append]
    have hh2 : host.data ≠ [] := fun e => hh (by cases host; simp_all)
    have hp2 : port.data ≠ [] := fun e => hp (by cases port; simp_all)
    have hM := matchHostPort_of_form host.data port.data hh2 hhost hp2 hport
    have hS : SplitAddress address = (host, port) := by
      simp only [SplitAddress, ReplaceAllString, hLines, List.map_cons, List.map_nil]
      rw [hData, hM]
      simp [List.intercalate]
    refine ⟨hS, ?_⟩
    rw [hS, hEq]
  · intro hNo
    have hM : matchHostPort address.data = none := by
      cases hC : matchHostPort address.data with
      | none => rfl
      | some g =>
        obtain ⟨host, port⟩ := g
        obtain ⟨h1, h2, h3, h4, h5⟩ := form_of_matchHostPort address.data host port hC
        exfalso
        apply hNo
        refine ⟨String.mk host, String.mk port, ?_, ?_, h3, ?_, h5⟩
        · apply String.ext
          simp [String.data_append, h1]
        · intro e
          exact h2 (by simpa using congrArg String.data e)
        · intro e
          exact h4 (by simpa using congrArg String.data e)
    simp only [SplitAddress, ReplaceAllString, hLines, List.map_cons, List.map_nil, hM]
    simp [List.intercalate]

/-- C17 at a concrete address: `n1:2221` splits into `n1` and `2221`. -/
theorem C17_split_address_witness :
    '\n' ∉ "n1:2221".data
      ∧ SplitAddress "n1:2221" = ("n1", "2221")
      ∧ (SplitAddress "n1:2221").1 ++ ":" ++ (SplitAddress "n1:2221").2 = "n1:2221" :=
  ⟨by decide,
    (C17_split_address "n1:2221" (by decide)).1 "n1" "2221" rfl (by decide) (by decide)
      (by decide) (by decide)⟩

end RaftSample
